import Mathlib

/-!
Verification development for the content-translator service.

The JavaScript sources under `src/server/services` (cloneService.js,
deepReferenceTracker.js — which also carries the ChangeDetectionService —,
incrementalTranslationService.js) and the ContentfulMetadataService are
shallowly embedded below.  JavaScript objects are modelled as insertion
ordered association lists, JavaScript strings as Lean strings (sequences of
characters), `new Date().toISOString()` as an explicit `nowISO` parameter,
the DeepL translator and the sha256 hash as oracle functions, and the
Contentful CMS as a finite map of entries.  Thrown exceptions are modelled
with `ExceptT String`; mutable service state with `StateM`.  Recursive graph
walks take an explicit fuel argument (the real services recurse on the
reference graph); every concrete evaluation below supplies ample fuel.
-/

namespace CT

/-! ## JSON-like field values and JavaScript object semantics -/

/-- A JSON-ish value as manipulated by the services.  `link lt id` stands for
the Contentful link object with sys type `Link`, sys linkType `lt` and sys id
`id`. -/
inductive JValue where
  | str (s : String)
  | num (n : Int)
  | jbool (b : Bool)
  | null
  | arr (items : List JValue)
  | obj (props : List (String × JValue))
  | link (linkType : String) (id : String)

/-- First-match lookup, the semantics of `o[k]` on a JavaScript object
modelled as an insertion-ordered association list. -/
def objGet {α : Type} (o : List (String × α)) (k : String) : Option α :=
  (o.find? (fun p => p.1 == k)).map (fun p => p.2)

/-- Key membership, the semantics of `k in o` / truthiness of `o[k]`. -/
def objHasKey {α : Type} (o : List (String × α)) (k : String) : Bool :=
  o.any (fun p => p.1 == k)

/-- Assignment `o[k] = v`: updates the value in place when the key exists
(JavaScript keeps the original key position), appends otherwise. -/
def objSet {α : Type} (o : List (String × α)) (k : String) (v : α) :
    List (String × α) :=
  if objHasKey o k then
    o.map (fun p => if p.1 == k then (p.1, v) else p)
  else
    o ++ [(k, v)]

/-- The JavaScript `a || b` on an optional string (both `undefined` and the
empty string are falsy). -/
def jsOrStr (a : Option String) (b : String) : String :=
  match a with
  | none => b
  | some s => if s = "" then b else s

/-- Truthiness of an optional string field (`undefined` and `""` are falsy). -/
def jsTruthyStr (a : Option String) : Bool :=
  match a with
  | none => false
  | some s => s ≠ ""

/-- Entries of a JavaScript object value: `Object.entries` on a `JValue.obj`,
empty for non-objects (the services only call it on localized field
objects). -/
def jsEntries : JValue → List (String × JValue)
  | JValue.obj props => props
  | _ => []

/-! ## Strings: substring search, first-occurrence replacement -/

/-- Does `needle` occur at the start of `hay` (character lists)? -/
def charsStartWith : List Char → List Char → Bool
  | [], _ => true
  | _ :: _, [] => false
  | n :: ns, h :: hs => n == h && charsStartWith ns hs

/-- JavaScript `hay.startsWith(needle)` (character-level). -/
def strStartsWith (hay needle : String) : Bool :=
  charsStartWith needle.data hay.data

/-- JavaScript `s.substring(n)` (drop the first `n` characters). -/
def strDrop (s : String) (n : Nat) : String :=
  ⟨s.data.drop n⟩

/-- JavaScript `s.toLowerCase()` (character-level). -/
def strToLower (s : String) : String :=
  ⟨s.data.map Char.toLower⟩

/-- JavaScript `s.toUpperCase()` (character-level). -/
def strToUpper (s : String) : String :=
  ⟨s.data.map Char.toUpper⟩

/-- JavaScript `s.trim()` (whitespace stripped from both ends). -/
def strTrim (s : String) : String :=
  ⟨((s.data.dropWhile Char.isWhitespace).reverse.dropWhile
      Char.isWhitespace).reverse⟩

/-- JavaScript `s.endsWith(needle)`. -/
def strEndsWith (hay needle : String) : Bool :=
  charsStartWith needle.data.reverse hay.data.reverse

/-- Split `hay` around the first occurrence of `needle` (character lists):
returns the part before and the part after the occurrence. -/
def charsSplitFirst (needle : List Char) : List Char → Option (List Char × List Char)
  | [] => if needle.isEmpty then some ([], []) else none
  | h :: hs =>
    if charsStartWith needle (h :: hs) then
      some ([], (h :: hs).drop needle.length)
    else
      match charsSplitFirst needle hs with
      | some (pre, post) => some (h :: pre, post)
      | none => none

/-- Split a string around the first occurrence of `needle`. -/
def splitFirst (hay needle : String) : Option (String × String) :=
  match charsSplitFirst needle.data hay.data with
  | some (pre, post) => some (⟨pre⟩, ⟨post⟩)
  | none => none

/-- The JavaScript `hay.replace(needle, repl)` with a string pattern:
replaces only the first occurrence, returns `hay` unchanged when `needle`
does not occur.  (The `$`-escape semantics of JavaScript replacement strings
is not modelled; no claim depends on it.) -/
def replaceFirst (hay needle repl : String) : String :=
  match splitFirst hay needle with
  | some (pre, post) => pre ++ repl ++ post
  | none => hay

/-- Substring test: does `needle` occur anywhere in `hay`? -/
def isSubstr (needle hay : String) : Bool :=
  (splitFirst hay needle).isSome

/-! ## The CMS data model -/

/-- One validation rule of a content-type field; `inVals` models the
`in` enumeration list (`validation.in`), absent when the rule has none. -/
structure Validation where
  inVals : Option (List String)
  deriving Repr, DecidableEq

/-- A content-type field definition as returned by `getContentType`. -/
structure FieldDef where
  id : String
  type : String
  required : Bool := false
  validations : List Validation := []
  deriving Repr, DecidableEq

/-- A content-type schema: ordered field list. -/
structure ContentType where
  id : String
  fields : List FieldDef
  deriving Repr, DecidableEq

/-- A CMS entry: sys data plus the field object
(field id → localized value, each localized value usually a
`JValue.obj` keyed by locale tag). -/
structure Entry where
  id : String
  contentTypeId : String
  version : Nat
  publishedVersion : Option Nat := none
  fields : List (String × JValue) := []

/-- `entry.sys.publishedVersion || entry.sys.version` (0 is falsy). -/
def pubOrVer (e : Entry) : Nat :=
  match e.publishedVersion with
  | some v => if v = 0 then e.version else v
  | none => e.version

/-- The read-only CMS world: entries and content types by id. -/
structure Env where
  entries : List (String × Entry) := []
  contentTypes : List (String × ContentType) := []

/-- `environment.getEntry` as a partial lookup. -/
def Env.getEntry (env : Env) (id : String) : Option Entry :=
  objGet env.entries id

/-- Every entry of the world is stored under its own id. -/
def Env.wf (env : Env) : Bool :=
  env.entries.all (fun p => p.2.id == p.1)

/-! ## Translator oracle -/

/-- The option bags passed to `translator.translateText`: no options, just
`preserveFormatting`, or `preserveFormatting` plus xml tag handling. -/
inductive TrOpts where
  | noOpts
  | preserveFmt
  | preserveFmtXml
  deriving Repr, DecidableEq

/-- The external DeepL translator, as an oracle:
`call text sourceLang targetLang opts` returns `none` when the provider call
throws and `some result.text` otherwise. -/
structure Translator where
  call : String → String → String → TrOpts → Option String

end CT

namespace CT

/-! ## cloneService.js — configuration (constructor defaults) -/

/-- `this.prefixConfig`; the field `prefix: '[Clone]'` is modelled as
`pfx`. -/
structure PrefixConfig where
  pfx : String
  targetFields : List String
  fieldTypes : List String

/-- `this.translationConfig`.  `translator` models `this.translator`
(`none` when no API key was supplied); `targetLanguage` is the value set by
`cloneEntry` (already lowercased). -/
structure TranslationConfig where
  enabled : Bool
  sourceLanguage : String
  targetLanguage : String
  translateableTypes : List String
  preservePrefixFlag : Bool

/-- `this.emptyFieldsConfig`. -/
structure EmptyFieldsConfig where
  enabled : Bool
  fieldIds : List String

/-- `this.copyAsIsConfig`. -/
structure CopyAsIsConfig where
  enabled : Bool
  fieldIds : List String

/-- `this.authorConfig`. -/
structure AuthorConfig where
  enabled : Bool
  fieldIds : List String
  authorContentType : String
  matchFields : List String
  cultureField : String

/-- `this.markdownFieldsConfig`. -/
structure MarkdownFieldsConfig where
  enabled : Bool
  fieldMappings : List (String × List String)

/-- The whole configuration of `ServerContentfulCloneService`, together with
the translator handle. -/
structure CloneConfig where
  prefixConfig : PrefixConfig
  translationConfig : TranslationConfig
  cultureMapping : List (String × String)
  cultureFieldNames : List String
  emptyFieldsConfig : EmptyFieldsConfig
  copyAsIsConfig : CopyAsIsConfig
  authorConfig : AuthorConfig
  markdownFieldsConfig : MarkdownFieldsConfig
  translator : Option Translator

/-- The constructor defaults of `ServerContentfulCloneService` (with a
translator handle `tr?` and an `enabled` flag standing for
`!!deeplApiKey`). -/
def defaultCloneConfig (tr? : Option Translator) (enabled : Bool) : CloneConfig where
  prefixConfig :=
    { pfx := "[Clone]", targetFields := ["title"], fieldTypes := ["Symbol", "Text"] }
  translationConfig :=
    { enabled := enabled, sourceLanguage := "", targetLanguage := "IT",
      translateableTypes := ["Symbol", "Text"], preservePrefixFlag := true }
  cultureMapping :=
    [("EN", "en-GB"), ("DE", "de-DE"), ("FR", "fr-FR"), ("IT", "it-IT"),
     ("ES", "es-ES"), ("NL", "nl-NL"), ("PT", "pt-PT"), ("RU", "ru-RU"),
     ("BG", "bg-BG"), ("CS", "cs-CZ"), ("HR", "hr-HR"), ("HU", "hu-HU"),
     ("PL", "pl-PL"), ("RO", "ro-RO"), ("SV", "sv-SE"), ("TR", "tr-TR"),
     ("UK", "uk-UA"), ("CA", "en-CA"), ("FR-CA", "fr-CA"), ("FR-BE", "fr-BE"),
     ("NL-BE", "nl-BE"), ("FR-LU", "fr-LU"), ("DE-AT", "de-AT")]
  cultureFieldNames := ["culture"]
  emptyFieldsConfig :=
    { enabled := true, fieldIds := ["slug", "parentPage", "productionUrl", "authors"] }
  copyAsIsConfig :=
    { enabled := true,
      fieldIds := ["domain", "pageType", "productionUrl", "makeModel",
                   "publicationDate", "lastModificationDate", "makeIds",
                   "modelIds", "trackingName"] }
  authorConfig :=
    { enabled := true, fieldIds := ["authors"], authorContentType := "author",
      matchFields := ["name"], cultureField := "locale" }
  markdownFieldsConfig :=
    { enabled := true,
      fieldMappings :=
        [("author", ["bio"]), ("cmsPage", ["teaserText"]),
         ("evmodelfinder", ["additional_information"]),
         ("questionAnswer", ["answerLong"]), ("infobox", ["text"]),
         ("scSuperhero", ["text", "bulletList"]), ("scBenefit", ["text"]),
         ("scMediaSection", ["text", "bulletList"]), ("scTeaser", ["text"]),
         ("scText", ["content"]),
         ("tierPricingTableCell", ["content", "tooltipText"]),
         ("tierPricingPlanTableSection", ["tooltipText"]),
         ("tierPricingPlan", ["description"])] }
  translator := tr?

/-! ## cloneService.js — pure helpers -/

/-- `mapContentfulLocaleToDeepLLanguage` (table lookup; `null` on a miss). -/
def mapContentfulLocaleToDeepLLanguage (contentfulLocale : String) : Option String :=
  objGet
    [("de-DE", "DE"), ("de-AT", "DE"), ("en-GB", "EN-GB"), ("en-US", "EN-US"),
     ("en-CA", "EN-US"), ("fr-FR", "FR"), ("fr-BE", "FR"), ("fr-CA", "FR"),
     ("fr-LU", "FR"), ("it-IT", "IT"), ("es-ES", "ES"), ("nl-NL", "NL"),
     ("nl-BE", "NL"), ("pt-PT", "PT-PT"), ("pt-BR", "PT-BR"), ("ru-RU", "RU"),
     ("ja-JP", "JA"), ("zh-CN", "ZH"), ("pl-PL", "PL"), ("sv-SE", "SV"),
     ("da-DK", "DA"), ("fi-FI", "FI"), ("no-NO", "NB"), ("cs-CZ", "CS"),
     ("et-EE", "ET"), ("lv-LV", "LV"), ("lt-LT", "LT"), ("sk-SK", "SK"),
     ("sl-SI", "SL"), ("bg-BG", "BG"), ("hu-HU", "HU"), ("ro-RO", "RO"),
     ("uk-UA", "UK"), ("tr-TR", "TR")]
    contentfulLocale

/-- `detectSourceLocaleFromEntry`: scans the configured culture field names;
on the first present culture field whose first locale value is a string it
returns the DeepL mapping of that value (possibly `null`). -/
def detectSourceLocaleFromEntry (cfg : CloneConfig) (entryFields : List (String × JValue)) :
    Option String :=
  go cfg.cultureFieldNames
where
  go : List String → Option String
    | [] => none
    | name :: rest =>
      match objGet entryFields name with
      | some cultureField =>
        match jsEntries cultureField with
        | (_, JValue.str contentfulLocale) :: _ =>
          mapContentfulLocaleToDeepLLanguage contentfulLocale
        | _ => go rest
      | none => go rest

/-- `findPrefixFields`: ids of content-type fields matching a configured
target field (case-insensitive), of a prefixable type, present on the source
entry. -/
def findPrefixFields (cfg : CloneConfig) (contentTypeFields : List FieldDef)
    (entryFields : List (String × JValue)) : List String :=
  cfg.prefixConfig.targetFields.foldl
    (fun acc targetField =>
      match contentTypeFields.find?
          (fun field => strToLower field.id == strToLower targetField) with
      | some fieldDef =>
        if cfg.prefixConfig.fieldTypes.contains fieldDef.type
            && objHasKey entryFields fieldDef.id then
          acc ++ [fieldDef.id]
        else acc
      | none => acc)
    []

/-- `shouldPrefixField`. -/
def shouldPrefixField (fieldId : String) (prefixFieldIds : List String) : Bool :=
  prefixFieldIds.contains fieldId

/-- `isCultureField`: the field id contains one of the culture field names,
case-insensitively. -/
def isCultureField (cfg : CloneConfig) (fieldId : String) : Bool :=
  cfg.cultureFieldNames.any
    (fun cultureName => isSubstr (strToLower cultureName) (strToLower fieldId))

/-- `shouldEmptyField`. -/
def shouldEmptyField (cfg : CloneConfig) (fieldId : String) : Bool :=
  cfg.emptyFieldsConfig.enabled && cfg.emptyFieldsConfig.fieldIds.contains fieldId

/-- `shouldCopyAsIs`. -/
def shouldCopyAsIs (cfg : CloneConfig) (fieldId : String) : Bool :=
  cfg.copyAsIsConfig.enabled && cfg.copyAsIsConfig.fieldIds.contains fieldId

/-- `isMarkdownField`. -/
def isMarkdownField (cfg : CloneConfig) (contentTypeId fieldId : String) : Bool :=
  if !cfg.markdownFieldsConfig.enabled then false
  else
    match objGet cfg.markdownFieldsConfig.fieldMappings contentTypeId with
    | some contentTypeFields => contentTypeFields.contains fieldId
    | none => false

/-- `isAuthorField`. -/
def isAuthorField (cfg : CloneConfig) (fieldId : String) : Bool :=
  cfg.authorConfig.enabled && cfg.authorConfig.fieldIds.contains fieldId

/-- `getCultureValue`: upper-cases the (lowercased) target language and looks
it up in the culture mapping (`null` on a miss). -/
def getCultureValue (cfg : CloneConfig) : Option String :=
  objGet cfg.cultureMapping (strToUpper cfg.translationConfig.targetLanguage)

/-- `getEmptyValueForField`: a typed empty value under the given locale, or
`null` when the field type has none. -/
def getEmptyValueForField (fieldDefinition : FieldDef) (locale : String) :
    Option JValue :=
  match fieldDefinition.type with
  | "Symbol" => some (JValue.obj [(locale, JValue.str "")])
  | "Text" => some (JValue.obj [(locale, JValue.str "")])
  | "Array" => some (JValue.obj [(locale, JValue.arr [])])
  | "Object" => some (JValue.obj [(locale, JValue.obj [])])
  | _ => none

/-- The first nonempty `validation.in` list of a field definition. -/
def firstEnumValues : List Validation → Option (List String)
  | [] => none
  | v :: rest =>
    match v.inVals with
    | some vals => if vals.length > 0 then some vals else firstEnumValues rest
    | none => firstEnumValues rest

/-- `getDefaultValueForField`: dropdown Symbols get the first enumerated
value; otherwise a type-specific default (`Default <fieldId>` for Symbol and
Text, 0, false, the current ISO timestamp, `[]`, `{}`; `null` under the
locale for unknown types).  `nowISO` models `new Date().toISOString()`. -/
def getDefaultValueForField (fieldDefinition : FieldDef) (locale nowISO : String) :
    JValue :=
  match
    (if fieldDefinition.type == "Symbol" then
      firstEnumValues fieldDefinition.validations
    else none) with
  | some vals => JValue.obj [(locale, JValue.str (vals.headD ""))]
  | none =>
    match fieldDefinition.type with
    | "Symbol" => JValue.obj [(locale, JValue.str ("Default " ++ fieldDefinition.id))]
    | "Text" => JValue.obj [(locale, JValue.str ("Default " ++ fieldDefinition.id))]
    | "Integer" => JValue.obj [(locale, JValue.num 0)]
    | "Number" => JValue.obj [(locale, JValue.num 0)]
    | "Boolean" => JValue.obj [(locale, JValue.jbool false)]
    | "Date" => JValue.obj [(locale, JValue.str nowISO)]
    | "Array" => JValue.obj [(locale, JValue.arr [])]
    | "Object" => JValue.obj [(locale, JValue.obj [])]
    | _ => JValue.obj [(locale, JValue.null)]

end CT

namespace CT

/-! ## cloneService.js — text translation -/

/-- `translateText(text, fieldType, sourceLanguage)` of the clone service.
Skips (returning the input) when translation is disabled, no translator is
configured, the text is empty, the field type is not translateable, or no
source language is available.  When the text starts with the configured
clone prefix and prefix preservation is on, the prefix plus one further
character (the separating space of `extractedPrefix`) is detached before
translating and re-prepended afterwards.  A provider error returns the
original text. -/
def translateText (cfg : CloneConfig) (text fieldType : String)
    (sourceLanguage : Option String) : String :=
  match cfg.translator with
  | none => text
  | some tr =>
    if !cfg.translationConfig.enabled || text == "" then text
    else if !cfg.translationConfig.translateableTypes.contains fieldType then text
    else
      let effectiveSourceLanguage :=
        jsOrStr sourceLanguage cfg.translationConfig.sourceLanguage
      if effectiveSourceLanguage == "" then text
      else
        let (textToTranslate, extractedPref) :=
          if cfg.translationConfig.preservePrefixFlag
              && strStartsWith text cfg.prefixConfig.pfx then
            let ep := cfg.prefixConfig.pfx ++ " "
            (strDrop text ep.length, ep)
          else (text, "")
        if strTrim textToTranslate == "" || (strTrim textToTranslate).length < 2 then text
        else
          match tr.call textToTranslate effectiveSourceLanguage
              cfg.translationConfig.targetLanguage TrOpts.noOpts with
          | some result => extractedPref ++ result
          | none => text

/-! ## cloneService.js — markdown translation -/

/-- One protected image of `translateMarkdownContent`: placeholder token,
captured caption and url, and the full matched block. -/
structure ImageData where
  token : String
  caption : String
  url : String
  fullMatch : String

/-- Attempt to match the image regex `!\[([^\]]*)\]\(([^)]+)\)` at the head
of a character list; on success returns caption, url and the rest of the
input. -/
def matchImage : List Char → Option (String × String × List Char)
  | '!' :: '[' :: rest =>
    let cap := rest.takeWhile (fun c => c != ']')
    (match rest.drop cap.length with
     | ']' :: '(' :: r2 =>
       let url := r2.takeWhile (fun c => c != ')')
       if url.isEmpty then none
       else
         match r2.drop url.length with
         | ')' :: r3 => some (⟨cap⟩, ⟨url⟩, r3)
         | _ => none
     | _ => none)
  | _ => none

/-- The global image replacement of `translateMarkdownContent`: walks the
content left to right, replacing each image block with the next
`IMG_PLACEHOLDER_<n>` token (counter pre-incremented, so the first token is
number 1) and recording the block.  `fuel` bounds the walk; each step
consumes at least one character, so `content.length` fuel is always
enough. -/
def protectImagesChars (fuel : Nat) (cs : List Char) (counter : Nat) :
    List Char × List ImageData :=
  match fuel, cs with
  | _, [] => ([], [])
  | 0, rest => (rest, [])
  | fuel + 1, c :: cs =>
    match matchImage (c :: cs) with
    | some (caption, url, rest) =>
      let token := "IMG_PLACEHOLDER_" ++ toString (counter + 1)
      let fullMatch := "![" ++ caption ++ "](" ++ url ++ ")"
      let (body, imgs) := protectImagesChars fuel rest (counter + 1)
      (token.data ++ body, ⟨token, caption, url, fullMatch⟩ :: imgs)
    | none =>
      let (body, imgs) := protectImagesChars fuel cs counter
      (c :: body, imgs)

/-- String-level wrapper for image protection: returns the placeholdered
body and the recorded image map in discovery order. -/
def protectImages (content : String) : String × List ImageData :=
  let (body, imgs) := protectImagesChars content.data.length content.data 0
  (⟨body⟩, imgs)

/-- `translateMarkdownContent(content, sourceLanguage)`: protects image
blocks behind placeholder tokens, translates the placeholdered body in one
provider call (formatting preserved, xml tag handling), then for each
recorded image translates its caption separately and replaces the first
occurrence of the token with `![translatedCaption](originalUrl)`; a caption
translation failure restores the full original block instead.  A body
translation failure (or missing translator) returns the original content. -/
def translateMarkdownContent (cfg : CloneConfig) (content sourceLanguage : String) :
    String :=
  match cfg.translator with
  | none => content
  | some tr =>
    if !cfg.translationConfig.enabled then content
    else
      let (processedContent, imageMap) := protectImages content
      match tr.call processedContent sourceLanguage
          cfg.translationConfig.targetLanguage TrOpts.preserveFmtXml with
      | none => content
      | some body =>
        imageMap.foldl
          (fun finalResult imageData =>
            match tr.call imageData.caption sourceLanguage
                cfg.translationConfig.targetLanguage TrOpts.preserveFmt with
            | some translatedCaption =>
              replaceFirst finalResult imageData.token
                ("![" ++ translatedCaption ++ "](" ++ imageData.url ++ ")")
            | none => replaceFirst finalResult imageData.token imageData.fullMatch)
          body

/-- `translateBulletList`: element-wise markdown translation.  A non-string
bullet makes `translateMarkdownContent` throw inside its own try block and
fall back to the original value, so non-strings pass through unchanged. -/
def translateBulletList (cfg : CloneConfig) (bulletList : List JValue)
    (sourceLanguage : String) : List JValue :=
  bulletList.map
    (fun bullet =>
      match bullet with
      | JValue.str s => JValue.str (translateMarkdownContent cfg s sourceLanguage)
      | v => v)

end CT

namespace CT

/-! ## cloneService.js — recursive cloning (stateful) -/

/-- A record of one `createEntry` call: the draft entry the CMS returned. -/
structure CreatedEntry where
  id : String
  contentTypeId : String
  fields : List (String × JValue)

/-- The mutable state of `ServerContentfulCloneService` during a run,
together with an observation log: `created` records every entry created via
`createEntry`, and `createdFrom` records, for each `createEntry` performed
inside `cloneEntryRecursive`, the source entry id it cloned. -/
structure CloneState where
  cloneMap : List (String × String) := []
  processingSet : List String := []
  contentTypeCache : List (String × ContentType) := []
  mainCmsPageSourceLanguage : Option String := none
  currentEntryContentType : Option String := none
  created : List CreatedEntry := []
  createdFrom : List (String × String) := []
  nextId : Nat := 0

/-- The clone-service monad: JavaScript exceptions over mutable service
state. -/
abbrev CloneM := ExceptT String (StateM CloneState)

/-- The world the clone service talks to: the CMS plus the
`getEntries` author query (content type id, culture field name, target
culture, match field name, match value → id of the first hit). -/
structure CloneWorld where
  env : Env
  authorQuery : String → String → String → String → String → Option String :=
    fun _ _ _ _ _ => none
  nowISO : String := "1970-01-01T00:00:00.000Z"

/-- `findExistingAuthor`: per configured match field, read the first locale
value of the author entry; when it is a string, query for an author of the
target culture with the same value; return the first hit.  Errors are caught
inside and yield `null`. -/
def findExistingAuthor (cfg : CloneConfig) (w : CloneWorld) (authorEntry : Entry)
    (targetCulture : String) : Option String :=
  go cfg.authorConfig.matchFields
where
  go : List String → Option String
    | [] => none
    | matchField :: rest =>
      match objGet authorEntry.fields matchField with
      | some fv =>
        match jsEntries fv with
        | (_, JValue.str fieldValue) :: _ =>
          match w.authorQuery cfg.authorConfig.authorContentType
              cfg.authorConfig.cultureField targetCulture matchField fieldValue with
          | some id => some id
          | none => go rest
        | _ => go rest
      | none => go rest

/-- `getContentType`: per-run cache in front of the CMS schema lookup; an
unknown content type throws. -/
def getContentType (w : CloneWorld) (contentTypeId : String) : CloneM ContentType := do
  let s ← get
  match objGet s.contentTypeCache contentTypeId with
  | some ct => pure ct
  | none =>
    match objGet w.env.contentTypes contentTypeId with
    | some ct => do
      modify (fun s => { s with
        contentTypeCache := objSet s.contentTypeCache contentTypeId ct })
      pure ct
    | none => throw ("content type not found: " ++ contentTypeId)

/-- `environment.createEntry`: allocates a fresh id and records the new
draft entry. -/
def createEntry (contentTypeId : String) (fields : List (String × JValue)) :
    CloneM String := do
  let s ← get
  let newId := "new" ++ toString s.nextId
  set { s with
    created := s.created ++ [CreatedEntry.mk newId contentTypeId fields],
    nextId := s.nextId + 1 }
  pure newId

mutual

/-- `cloneEntryRecursive`: memo check on the clone map, schema fetch, field
processing in schema order, entry creation, clone-map recording.  The catch
clause restores `currentEntryContentType` and rethrows.  `fuel` bounds the
graph recursion. -/
def cloneEntryRecursive (cfg : CloneConfig) (w : CloneWorld) :
    Nat → Entry → String → CloneM String
  | 0, _, _ => throw "out of fuel"
  | fuel + 1, sourceEntry, locale => do
    let sourceId := sourceEntry.id
    let key := "Entry:" ++ sourceId
    let s0 ← get
    match objGet s0.cloneMap key with
    | some mapped => pure mapped
    | none => do
      let previousContentType := s0.currentEntryContentType
      try
        let contentType ← getContentType w sourceEntry.contentTypeId
        modify (fun s => { s with
          currentEntryContentType := some sourceEntry.contentTypeId })
        let isCmsPage := sourceEntry.contentTypeId == "cmsPage"
        let detectedSourceLanguage ←
          if isCmsPage then
            pure (detectSourceLocaleFromEntry cfg sourceEntry.fields)
          else do
            let s ← get
            pure s.mainCmsPageSourceLanguage
        let prefixFieldIds := findPrefixFields cfg contentType.fields sourceEntry.fields
        let entryFields ← processEntryFields cfg w fuel sourceEntry
          contentType.fields detectedSourceLanguage prefixFieldIds locale []
        let newId ← createEntry sourceEntry.contentTypeId entryFields
        modify (fun s => { s with
          cloneMap := objSet s.cloneMap key newId,
          createdFrom := s.createdFrom ++ [(sourceId, newId)],
          currentEntryContentType := previousContentType })
        pure newId
      catch e => do
        modify (fun s => { s with currentEntryContentType := previousContentType })
        throw e

/-- The per-field loop of `cloneEntryRecursive` (builds `entryData.fields`
in schema order).  Present fields go through the empty-set, copy-as-is,
author and normal branches; absent required fields get the typed empty value
or the type-specific default. -/
def processEntryFields (cfg : CloneConfig) (w : CloneWorld) :
    Nat → Entry → List FieldDef → Option String → List String → String →
    List (String × JValue) → CloneM (List (String × JValue))
  | 0, _, _, _, _, _, _ => throw "out of fuel"
  | _ + 1, _, [], _, _, _, acc => pure acc
  | fuel + 1, sourceEntry, fieldDef :: rest, detectedSourceLanguage,
      prefixFieldIds, locale, acc => do
    let fieldId := fieldDef.id
    let acc2 ←
      match objGet sourceEntry.fields fieldId with
      | some originalFieldValue =>
        if shouldEmptyField cfg fieldId then
          match getEmptyValueForField fieldDef locale with
          | some emptyValue => pure (objSet acc fieldId emptyValue)
          | none => pure acc
        else if shouldCopyAsIs cfg fieldId || isAuthorField cfg fieldId then do
          let processedField ← processLocalesPlain cfg w fuel
            (jsEntries originalFieldValue) fieldId []
          pure (objSet acc fieldId (JValue.obj processedField))
        else do
          let processedField ← processLocalesMain cfg w fuel
            sourceEntry.contentTypeId fieldDef (jsEntries originalFieldValue)
            detectedSourceLanguage prefixFieldIds []
          pure (objSet acc fieldId (JValue.obj processedField))
      | none =>
        if fieldDef.required then
          if shouldEmptyField cfg fieldId then
            match getEmptyValueForField fieldDef locale with
            | some emptyValue => pure (objSet acc fieldId emptyValue)
            | none => pure acc
          else
            -- getDefaultValueForField never returns JavaScript null (the
            -- default case returns an object holding null), so the
            -- `!== null` guard always passes
            pure (objSet acc fieldId (getDefaultValueForField fieldDef locale w.nowISO))
        else
          pure acc
    processEntryFields cfg w fuel sourceEntry rest detectedSourceLanguage
      prefixFieldIds locale acc2

/-- The locale loop of the copy-as-is and author branches: each locale value
is processed for link rewriting only. -/
def processLocalesPlain (cfg : CloneConfig) (w : CloneWorld) :
    Nat → List (String × JValue) → String → List (String × JValue) →
    CloneM (List (String × JValue))
  | 0, _, _, _ => throw "out of fuel"
  | _ + 1, [], _, acc => pure acc
  | fuel + 1, (fieldLocale, value) :: rest, fieldId, acc => do
    let processedValue ← processFieldValue cfg w fuel value fieldLocale fieldId
    processLocalesPlain cfg w fuel rest fieldId (acc ++ [(fieldLocale, processedValue)])

/-- The locale loop of the normal branch: link processing, prefix
application, then the culture / markdown / plain-text translation chain, in
the source's order. -/
def processLocalesMain (cfg : CloneConfig) (w : CloneWorld) :
    Nat → String → FieldDef → List (String × JValue) → Option String →
    List String → List (String × JValue) → CloneM (List (String × JValue))
  | 0, _, _, _, _, _, _ => throw "out of fuel"
  | _ + 1, _, _, [], _, _, acc => pure acc
  | fuel + 1, contentTypeId, fieldDef, (fieldLocale, value) :: rest,
      detectedSourceLanguage, prefixFieldIds, acc => do
    let fieldId := fieldDef.id
    let pv0 ← processFieldValue cfg w fuel value fieldLocale fieldId
    let pv1 :=
      if shouldPrefixField fieldId prefixFieldIds then
        match pv0 with
        | JValue.str s => JValue.str (cfg.prefixConfig.pfx ++ " " ++ s)
        | v => v
      else pv0
    let pv2 :=
      if isCultureField cfg fieldId then
        match getCultureValue cfg with
        | some cultureValue =>
          if cultureValue == "" then pv1 else JValue.str cultureValue
        | none => pv1
      else
        match detectedSourceLanguage with
        | some dsl =>
          if isMarkdownField cfg contentTypeId fieldId then
            if fieldId == "bulletList" then
              match pv1 with
              | JValue.arr items => JValue.arr (translateBulletList cfg items dsl)
              | JValue.str s => JValue.str (translateMarkdownContent cfg s dsl)
              | v => v
            else
              match pv1 with
              | JValue.str s => JValue.str (translateMarkdownContent cfg s dsl)
              | v => v
          else
            match pv1 with
            | JValue.str s =>
              JValue.str (translateText cfg s fieldDef.type detectedSourceLanguage)
            | v => v
        | none =>
          -- the markdown branch also requires a detected source language;
          -- without one, strings of non-markdown fields still reach
          -- translateText (which then skips for lack of a source language)
          match pv1 with
          | JValue.str s =>
            if !(isMarkdownField cfg contentTypeId fieldId) then
              JValue.str (translateText cfg s fieldDef.type none)
            else pv1
          | v => v
    processLocalesMain cfg w fuel contentTypeId fieldDef rest
      detectedSourceLanguage prefixFieldIds (acc ++ [(fieldLocale, pv2)])

/-- `processFieldValue`: arrays are processed element-wise (links through
`processLinkField`), single links through `processLinkField`, anything else
passes through. -/
def processFieldValue (cfg : CloneConfig) (w : CloneWorld) :
    Nat → JValue → String → String → CloneM JValue
  | 0, _, _, _ => throw "out of fuel"
  | fuel + 1, value, locale, fieldId =>
    match value with
    | JValue.arr items => do
      let processedArray ← processArrayItems cfg w fuel items locale fieldId
      pure (JValue.arr processedArray)
    | JValue.link lt id => processLinkField cfg w fuel (JValue.link lt id) locale fieldId
    | v => pure v

/-- The array loop of `processFieldValue`: link items go through
`processLinkField` (dropped when that returns null), other items recurse. -/
def processArrayItems (cfg : CloneConfig) (w : CloneWorld) :
    Nat → List JValue → String → String → CloneM (List JValue)
  | 0, _, _, _ => throw "out of fuel"
  | _ + 1, [], _, _ => pure []
  | fuel + 1, item :: rest, locale, fieldId => do
    match item with
    | JValue.link lt id => do
      let processedLink ← processLinkField cfg w fuel (JValue.link lt id) locale fieldId
      let restProcessed ← processArrayItems cfg w fuel rest locale fieldId
      match processedLink with
      | JValue.null => pure restProcessed
      | pl => pure (pl :: restProcessed)
    | v => do
      let pv ← processFieldValue cfg w fuel v locale fieldId
      let restProcessed ← processArrayItems cfg w fuel rest locale fieldId
      pure (pv :: restProcessed)

/-- `processLinkField`: clone-map hit rewrites the link; a key already in
the processing set returns the original link (cycle break); otherwise the
key is marked as processing and the entry is cloned (with the author
re-link attempt first on author fields) or, for assets, recorded identically
in the clone map.  Any error returns the original link. -/
def processLinkField (cfg : CloneConfig) (w : CloneWorld) :
    Nat → JValue → String → String → CloneM JValue
  | 0, _, _, _ => throw "out of fuel"
  | fuel + 1, linkValue, locale, fieldId =>
    match linkValue with
    | JValue.link linkType id => do
      let key := linkType ++ ":" ++ id
      let s0 ← get
      match objGet s0.cloneMap key with
      | some mapped => pure (JValue.link linkType mapped)
      | none =>
        if s0.processingSet.contains key then
          pure (JValue.link linkType id)
        else do
          modify (fun s => { s with processingSet := s.processingSet ++ [key] })
          try
            if linkType == "Entry" then do
              let doClone : CloneM JValue := do
                match w.env.getEntry id with
                | none => throw ("entry not found: " ++ id)
                | some sourceEntry => do
                  let clonedEntryId ← cloneEntryRecursive cfg w fuel sourceEntry locale
                  modify (fun s => { s with
                    processingSet := s.processingSet.erase key })
                  pure (JValue.link "Entry" clonedEntryId)
              if fieldId ≠ "" && isAuthorField cfg fieldId then
                match w.env.getEntry id with
                | none => throw ("entry not found: " ++ id)
                | some originalAuthor =>
                  if originalAuthor.contentTypeId ==
                      cfg.authorConfig.authorContentType then
                    match getCultureValue cfg with
                    | some targetCulture =>
                      match findExistingAuthor cfg w originalAuthor targetCulture with
                      | some existingAuthorId => do
                        modify (fun s => { s with
                          cloneMap := objSet s.cloneMap key existingAuthorId,
                          processingSet := s.processingSet.erase key })
                        pure (JValue.link "Entry" existingAuthorId)
                      | none => doClone
                    | none => doClone
                  else doClone
              else doClone
            else if linkType == "Asset" then do
              modify (fun s => { s with
                cloneMap := objSet s.cloneMap key id,
                processingSet := s.processingSet.erase key })
              pure (JValue.link linkType id)
            else do
              modify (fun s => { s with processingSet := s.processingSet.erase key })
              pure (JValue.link linkType id)
          catch _ => do
            modify (fun s => { s with processingSet := s.processingSet.erase key })
            pure (JValue.link linkType id)
    | other => pure other

end

/-- `cloneEntry` (the core of it: state resetting, CmsPage validation,
source-language detection, recursive clone).  Returns the cloned entry id
and the final clone mapping. -/
def cloneEntry (cfg0 : CloneConfig) (w : CloneWorld) (fuel : Nat)
    (sourceEntryId targetLanguage : String) :
    CloneM (String × List (String × String)) := do
  let cfg := { cfg0 with translationConfig :=
    { cfg0.translationConfig with targetLanguage := strToLower targetLanguage } }
  modify (fun s => { s with cloneMap := [], processingSet := [] })
  match w.env.getEntry sourceEntryId with
  | none => throw ("source entry not found: " ++ sourceEntryId)
  | some sourceEntry =>
    if sourceEntry.contentTypeId ≠ "cmsPage" then
      throw "This tool only works with CmsPage content type"
    else
      match detectSourceLocaleFromEntry cfg sourceEntry.fields with
      | none =>
        throw "Main CmsPage entry is missing required culture field"
      | some lang => do
        modify (fun s => { s with mainCmsPageSourceLanguage := some lang })
        let clonedEntryId ← cloneEntryRecursive cfg w fuel sourceEntry "en-US-POSIX"
        let s ← get
        pure (clonedEntryId, s.cloneMap)

end CT

namespace CT

/-! ## JSON serialization (`JSON.stringify(v, null, 0)`), used for hashes -/

mutual

/-- A compact JSON rendering of a value (string escaping is not modelled;
links render as their sys object). -/
def jsonStringify : JValue → String
  | JValue.str s => "\"" ++ s ++ "\""
  | JValue.num n => toString n
  | JValue.jbool b => if b then "true" else "false"
  | JValue.null => "null"
  | JValue.arr items => "[" ++ jsonStringifyList items ++ "]"
  | JValue.obj props => "\x7b" ++ jsonStringifyProps props ++ "\x7d"
  | JValue.link lt id =>
    "\x7b\"sys\":\x7b\"type\":\"Link\",\"linkType\":\"" ++ lt ++
      "\",\"id\":\"" ++ id ++ "\"\x7d\x7d"

/-- Comma-separated rendering of array items. -/
def jsonStringifyList : List JValue → String
  | [] => ""
  | [x] => jsonStringify x
  | x :: y :: xs => jsonStringify x ++ "," ++ jsonStringifyList (y :: xs)

/-- Comma-separated rendering of object properties. -/
def jsonStringifyProps : List (String × JValue) → String
  | [] => ""
  | [(k, v)] => "\"" ++ k ++ "\":" ++ jsonStringify v
  | (k, v) :: y :: xs =>
    "\"" ++ k ++ "\":" ++ jsonStringify v ++ "," ++ jsonStringifyProps (y :: xs)

end

/-! ## deepReferenceTracker.js — reference trees -/

/-- A node of the deep reference tree
(`{id, version, depth, parentId, parentField, contentHash, lastUpdated,
children}`). -/
inductive RefNode where
  | mk (id : String) (version : Nat) (depth : Nat) (parentId : Option String)
      (parentField : Option String) (contentHash : String)
      (lastUpdated : String) (children : List RefNode)

def RefNode.id : RefNode → String
  | RefNode.mk i _ _ _ _ _ _ _ => i

def RefNode.version : RefNode → Nat
  | RefNode.mk _ v _ _ _ _ _ _ => v

def RefNode.depth : RefNode → Nat
  | RefNode.mk _ _ d _ _ _ _ _ => d

def RefNode.parentId : RefNode → Option String
  | RefNode.mk _ _ _ p _ _ _ _ => p

def RefNode.parentField : RefNode → Option String
  | RefNode.mk _ _ _ _ f _ _ _ => f

def RefNode.contentHash : RefNode → String
  | RefNode.mk _ _ _ _ _ h _ _ => h

def RefNode.lastUpdated : RefNode → String
  | RefNode.mk _ _ _ _ _ _ u _ => u

def RefNode.children : RefNode → List RefNode
  | RefNode.mk _ _ _ _ _ _ _ c => c

namespace Tracker

/-- `isLocalizedField`: a non-null, non-array object without `sys`. -/
def isLocalizedField : JValue → Bool
  | JValue.obj _ => true
  | _ => false

mutual

/-- `isReferenceField`: an array containing a link, a localized object one of
whose values is a reference field, or a link itself. -/
def isReferenceField (value : JValue) : Bool :=
  match value with
  | JValue.arr items => anyIsLink items
  | JValue.obj props => anyValueIsReferenceField props
  | JValue.link _ _ => true
  | _ => false

/-- Does any array item carry `sys.type === 'Link'`? -/
def anyIsLink : List JValue → Bool
  | [] => false
  | JValue.link _ _ :: _ => true
  | _ :: rest => anyIsLink rest

/-- Does any locale value of a localized field contain references? -/
def anyValueIsReferenceField : List (String × JValue) → Bool
  | [] => false
  | (_, v) :: rest => isReferenceField v || anyValueIsReferenceField rest

end

mutual

/-- `extractReferencedEntries`: the link items of an array, the links of all
locale values of a localized object, or a single link. -/
def extractReferencedEntries (value : JValue) : List JValue :=
  match value with
  | JValue.arr items => filterLinks items
  | JValue.obj props => extractFromValues props
  | JValue.link lt id => [JValue.link lt id]
  | _ => []

/-- The link items of an array value. -/
def filterLinks : List JValue → List JValue
  | [] => []
  | JValue.link lt id :: rest => JValue.link lt id :: filterLinks rest
  | _ :: rest => filterLinks rest

/-- The links of all locale values of a localized field, in order. -/
def extractFromValues : List (String × JValue) → List JValue
  | [] => []
  | (_, v) :: rest => extractReferencedEntries v ++ extractFromValues rest

end

/-- `isAssetReference`: `ref?.sys?.linkType === 'Asset'`. -/
def isAssetReference : JValue → Bool
  | JValue.link lt _ => lt == "Asset"
  | _ => false

/-- `shouldTrackReferenceField`: the field name must not start with any
non-trackable reference field name. -/
def shouldTrackReferenceField (fieldName : String) : Bool :=
  let nonTrackableReferenceFields :=
    ["parentPage", "authors", "sys", "contentfulMetadata", "makeModel",
     "makeIds", "modelIds", "trackingName", "internalName", "fieldStatus",
     "automationTags", "culture", "domain", "pageType"]
  !(nonTrackableReferenceFields.any (fun field => strStartsWith fieldName field))

/-- The tracker's `isTranslatableField` (used for content hashes): not on
the denylist, not a link or array of links, and a string or a localized
object with some string value.  (Rich-text `nodeType` objects are subsumed
by the localized-object case in this model, which has no separate rich-text
shape.) -/
def isTranslatableField (fieldName : String) (fieldValue : JValue) : Bool :=
  let nonTranslatableFields :=
    ["slug", "sys_", "internalName", "id", "contentfulMetadata", "parentPage",
     "authors", "avatar", "image", "heroImages", "teaserImage", "icon",
     "plans", "sections", "elements", "links", "faq", "rows",
     "recommendedCategory", "product", "metaIndexToggle",
     "enableFeaturedArticle", "showInGoogleNews", "hasHighlightedText",
     "isPrimary", "spotlight", "publishedCounter", "fieldStatus",
     "automationTags"]
  if nonTranslatableFields.any (fun field => strStartsWith fieldName field) then false
  else
    match fieldValue with
    | JValue.link _ _ => false
    | JValue.arr (JValue.link _ _ :: _) => false
    | JValue.str _ => true
    | JValue.arr _ => false
    | JValue.obj props =>
      props.any (fun p => match p.2 with | JValue.str _ => true | _ => false)
    | _ => false

/-- The tracker's `isFieldTranslatable` (used for child-entry field
changes): not a skip field, and an object value with some nonblank string
locale value. -/
def isFieldTranslatable (fieldName : String) (fieldValue : JValue) : Bool :=
  let skipFields := ["culture", "domain", "slug", "sys", "metadata"]
  if skipFields.contains fieldName then false
  else
    match fieldValue with
    | JValue.obj props =>
      props.any (fun p =>
        match p.2 with
        | JValue.str s => (strTrim s).length > 0
        | _ => false)
    | JValue.arr items =>
      items.any (fun v => match v with | JValue.str s => (strTrim s).length > 0 | _ => false)
    | _ => false

/-- The tracker's `generateFieldHashes` (child-entry variant): hashes the
JSON of every object-valued field (no translatability filter). -/
def generateFieldHashes (hashFn : String → String) (entry : Entry) :
    List (String × String) :=
  entry.fields.foldl
    (fun hashes p =>
      match p.2 with
      | JValue.str _ => hashes
      | JValue.num _ => hashes
      | JValue.jbool _ => hashes
      | JValue.null => hashes
      | v => objSet hashes p.1 (hashFn (jsonStringify v)))
    []

/-- `generateContentHash`: sha256 (the oracle `hashFn`) over the compact
JSON of the entry's translatable fields. -/
def generateContentHash (hashFn : String → String) (entry : Entry) : String :=
  let translatableFields :=
    entry.fields.filter (fun p => isTranslatableField p.1 p.2)
  hashFn (jsonStringify (JValue.obj translatableFields))

mutual

/-- `buildReferenceTree`: a node for the entry at `currentDepth`; when the
depth cap is not yet reached, child references of trackable reference fields
are fetched and recursed into with depth + 1 (assets and immediate
self-references skipped, fetch failures skip the subtree).  `fuel` bounds
the recursion; any fuel above `maxDepth - currentDepth` is enough. -/
def buildReferenceTree (env : Env) (hashFn : String → String) (nowISO : String)
    (maxDepth : Nat) : Nat → Entry → Nat → Option String → Option String → RefNode
  | 0, entry, currentDepth, parentId, parentField =>
    RefNode.mk entry.id (pubOrVer entry) currentDepth parentId parentField
      (generateContentHash hashFn entry) nowISO []
  | fuel + 1, entry, currentDepth, parentId, parentField =>
    let children :=
      if currentDepth < maxDepth then
        scanFields env hashFn nowISO maxDepth fuel entry currentDepth entry.fields
      else []
    RefNode.mk entry.id (pubOrVer entry) currentDepth parentId parentField
      (generateContentHash hashFn entry) nowISO children
termination_by structural fuel => fuel

/-- The field loop of `buildReferenceTree`. -/
def scanFields (env : Env) (hashFn : String → String) (nowISO : String)
    (maxDepth : Nat) : Nat → Entry → Nat → List (String × JValue) → List RefNode
  | 0, _, _, _ => []
  | _ + 1, _, _, [] => []
  | fuel + 1, entry, currentDepth, (fieldId, fieldValue) :: rest =>
    (if isReferenceField fieldValue then
      if shouldTrackReferenceField fieldId then
        scanRefs env hashFn nowISO maxDepth fuel entry currentDepth fieldId
          (extractReferencedEntries fieldValue)
      else []
    else []) ++
    scanFields env hashFn nowISO maxDepth fuel entry currentDepth rest
termination_by structural fuel => fuel

/-- The reference loop of `buildReferenceTree` over one field's extracted
references. -/
def scanRefs (env : Env) (hashFn : String → String) (nowISO : String)
    (maxDepth : Nat) : Nat → Entry → Nat → String → List JValue → List RefNode
  | 0, _, _, _, _ => []
  | _ + 1, _, _, _, [] => []
  | fuel + 1, entry, currentDepth, fieldId, ref :: rest =>
    scanOneRef env hashFn nowISO maxDepth fuel entry currentDepth fieldId ref ++
    scanRefs env hashFn nowISO maxDepth fuel entry currentDepth fieldId rest
termination_by structural fuel => fuel

/-- The body of `buildReferenceTree`'s reference loop for one reference:
non-links and empty or self ids are skipped, assets are skipped, otherwise
the referenced entry is fetched (a fetch failure skips the subtree) and
recursed into at depth + 1. -/
def scanOneRef (env : Env) (hashFn : String → String) (nowISO : String)
    (maxDepth : Nat) : Nat → Entry → Nat → String → JValue → List RefNode
  | 0, _, _, _, _ => []
  | fuel + 1, entry, currentDepth, fieldId, JValue.link lt refId =>
    if refId ≠ "" && refId ≠ entry.id then
      if isAssetReference (JValue.link lt refId) then []
      else
        match env.getEntry refId with
        | some referencedEntry =>
          [buildReferenceTree env hashFn nowISO maxDepth fuel referencedEntry
            (currentDepth + 1) (some entry.id) (some fieldId)]
        | none => []
    else []
  | _ + 1, _, _, _, _ => []
termination_by structural fuel => fuel

end

mutual

/-- `flattenReferenceTree`: id → node map (children emptied), root first,
then the children depth-first; re-occurring ids overwrite in place. -/
def flattenReferenceTree (tree : RefNode) : List (String × RefNode) :=
  addNode tree []

/-- `addNode` of `flattenReferenceTree`: record the node (without children),
then its children in order. -/
def addNode : RefNode → List (String × RefNode) → List (String × RefNode)
  | RefNode.mk i v d p f h u children, flattened =>
    addNodes children
      (objSet flattened i (RefNode.mk i v d p f h u []))

/-- The child loop of `addNode`. -/
def addNodes : List RefNode → List (String × RefNode) → List (String × RefNode)
  | [], flattened => flattened
  | c :: cs, flattened => addNodes cs (addNode c flattened)

end

end Tracker

end CT

namespace CT

/-! ## Relationship store data (file documents and CMS metadata entries) -/

/-- `metadata` of a relationship record; every field may be absent on disk. -/
structure MetaDoc where
  lastTranslatedVersion : Option Int := none
  lastUpdated : Option String := none
  createdAt : Option String := none

/-- `translationContext`. -/
structure TransCtx where
  sourceLanguage : String
  targetLanguage : String

/-- A deep reference map
(`{sourceEntryId, targetEntryId, maxDepth, lastScanned, referenceTree,
flattenedRefs}`). -/
structure DeepMap where
  sourceEntryId : String
  targetEntryId : String
  maxDepth : Nat
  lastScanned : String
  referenceTree : RefNode
  flattenedRefs : List (String × RefNode)

/-- A parsed JSON document of the tracking directory: either a relationship
record or a deep-references snapshot; all fields optional, mirroring
`JSON.parse` output. -/
structure StoredDoc where
  sourceEntryId : Option String := none
  targetEntryId : Option String := none
  referenceTree : Option RefNode := none
  flattenedRefs : Option (List (String × RefNode)) := none
  maxDepthDoc : Option Nat := none
  lastScanned : Option String := none
  metadata : Option MetaDoc := none
  translationContext : Option TransCtx := none
  fieldHashes : Option (List (String × String)) := none
  cloneMapping : Option (List (String × String)) := none
  deepReferenceMap : Option DeepMap := none
  backupData : Option String := none

/-- The document shape written for a deep-references snapshot file. -/
def docOfDeepMap (m : DeepMap) : StoredDoc where
  sourceEntryId := some m.sourceEntryId
  targetEntryId := some m.targetEntryId
  referenceTree := some m.referenceTree
  flattenedRefs := some m.flattenedRefs
  maxDepthDoc := some m.maxDepth
  lastScanned := some m.lastScanned

/-- Reading a deep-references snapshot back from a document (absent fields
surface as defaults; the services only read back what they wrote). -/
def deepOfDoc (d : StoredDoc) : DeepMap where
  sourceEntryId := d.sourceEntryId.getD ""
  targetEntryId := d.targetEntryId.getD ""
  maxDepth := d.maxDepthDoc.getD 0
  lastScanned := d.lastScanned.getD ""
  referenceTree := d.referenceTree.getD (RefNode.mk "" 0 0 none none "" "" [])
  flattenedRefs := (d.flattenedRefs).getD []

/-- One entry of the `translationMetadata` content type in the CMS (the
single storage locale is left implicit: each field holds the value stored
under it). -/
structure CmsMetaEntry where
  sysId : String
  relationshipId : String
  sourceEntryId : String
  targetEntryId : String
  translationContext : Option TransCtx := none
  metadata : Option MetaDoc := none
  fieldHashes : Option (List (String × String)) := none
  cloneMapping : Option (List (String × String)) := none
  deepReferenceMap : Option DeepMap := none
  backupData : Option String := none

/-- The deep reference tracker's options. -/
structure TrackerCfg where
  maxDepth : Nat := 3
  autoTranslateNewRefs : Bool := true

/-- The mutable state of the incremental translation service: the CMS-backed
metadata store (`none` models an uninitialized `contentfulMetadataService`),
the filesystem tracking directory, and the two tracker references —
`cdsTracker` models `changeDetectionService.deepReferenceTracker` (the one
`initializeDeepTrackingAsync` assigns), `svcTracker` models the service's own
`this.deepReferenceTracker`, which no code ever assigns. -/
structure IncState where
  contentful : Option (List CmsMetaEntry) := none
  cmsNextId : Nat := 0
  fileStore : List (String × StoredDoc) := []
  cdsTracker : Option TrackerCfg := none
  svcTracker : Option TrackerCfg := none

/-- The incremental-service monad. -/
abbrev IncM := ExceptT String (StateM IncState)

/-- The ambient world of the incremental service: the CMS, the hash oracle
and the clock. -/
structure IncWorld where
  env : Env
  hashFn : String → String := id
  nowISO : String := "1970-01-01T00:00:00.000Z"

/-! ## ContentfulMetadataService (primary, CMS-backed store) -/

namespace Cms

/-- `generateRelationshipId`. -/
def generateRelationshipId (sourceEntryId targetEntryId : String) : String :=
  sourceEntryId ++ "_" ++ targetEntryId

/-- `findRelationshipMetadata`: indexed query on `fields.relationshipId`. -/
def findRelationshipMetadata (sourceEntryId targetEntryId : String) :
    IncM (Option CmsMetaEntry) := do
  let s ← get
  match s.contentful with
  | none => pure none
  | some store =>
    let relationshipId := generateRelationshipId sourceEntryId targetEntryId
    pure (store.find? (fun e => e.relationshipId == relationshipId))

/-- `storeRelationshipMetadata`: updates the existing metadata entry for the
pair wholesale from `data` (including `metadata`), or creates a new one. -/
def storeRelationshipMetadata (sourceEntryId targetEntryId : String)
    (data : StoredDoc) : IncM Unit := do
  let existing? ← findRelationshipMetadata sourceEntryId targetEntryId
  let s ← get
  match s.contentful with
  | none => throw "contentfulMetadataService not initialized"
  | some store =>
    let relationshipId := generateRelationshipId sourceEntryId targetEntryId
    match existing? with
    | some existingEntry =>
      let updated : CmsMetaEntry :=
        { sysId := existingEntry.sysId
          relationshipId := relationshipId
          sourceEntryId := sourceEntryId
          targetEntryId := targetEntryId
          translationContext := data.translationContext
          metadata := data.metadata
          fieldHashes := data.fieldHashes
          cloneMapping := data.cloneMapping
          deepReferenceMap := data.deepReferenceMap
          backupData := data.backupData }
      set { s with contentful := some (store.map
        (fun (e : CmsMetaEntry) =>
          if e.sysId == existingEntry.sysId then updated else e)) }
    | none =>
      let newEntry : CmsMetaEntry :=
        { sysId := "cmsMeta" ++ toString s.cmsNextId
          relationshipId := relationshipId
          sourceEntryId := sourceEntryId
          targetEntryId := targetEntryId
          translationContext := data.translationContext
          metadata := data.metadata
          fieldHashes := data.fieldHashes
          cloneMapping := data.cloneMapping
          deepReferenceMap := data.deepReferenceMap
          backupData := data.backupData }
      set { s with contentful := some (store ++ [newEntry]),
                   cmsNextId := s.cmsNextId + 1 }

/-- `getRelationshipMetadata`: converts the CMS entry back to the
relationship format (`fieldHashes` and `cloneMapping` default to empty);
errors yield `null`. -/
def getRelationshipMetadata (sourceEntryId targetEntryId : String) :
    IncM (Option StoredDoc) := do
  let entry? ← findRelationshipMetadata sourceEntryId targetEntryId
  match entry? with
  | none => pure none
  | some e =>
    pure (some
      { sourceEntryId := some e.sourceEntryId
        targetEntryId := some e.targetEntryId
        translationContext := e.translationContext
        metadata := e.metadata
        fieldHashes := some (e.fieldHashes.getD [])
        cloneMapping := some (e.cloneMapping.getD [])
        deepReferenceMap := e.deepReferenceMap
        backupData := e.backupData })

/-- `storeDeepReferenceMap` (CMS side): merges the snapshot into the
existing relationship, or — when no relationship exists — creates a minimal
entry whose metadata carries `lastTranslatedVersion: 0` and unknown
languages. -/
def storeDeepReferenceMap (w : IncWorld) (sourceEntryId targetEntryId : String)
    (deepMap : DeepMap) : IncM Unit := do
  let existingData? ← getRelationshipMetadata sourceEntryId targetEntryId
  match existingData? with
  | some existingData =>
    storeRelationshipMetadata sourceEntryId targetEntryId
      { existingData with deepReferenceMap := some deepMap }
  | none =>
    let minimalData : StoredDoc :=
      { sourceEntryId := some sourceEntryId
        targetEntryId := some targetEntryId
        metadata := some
          { lastTranslatedVersion := some 0
            lastUpdated := some w.nowISO
            createdAt := some w.nowISO }
        translationContext := some ⟨"unknown", "unknown"⟩
        fieldHashes := some []
        cloneMapping := some []
        deepReferenceMap := some deepMap }
    storeRelationshipMetadata sourceEntryId targetEntryId minimalData

/-- `getDeepReferenceMap`. -/
def getDeepReferenceMap (sourceEntryId targetEntryId : String) :
    IncM (Option DeepMap) := do
  let data? ← getRelationshipMetadata sourceEntryId targetEntryId
  pure (data?.bind (fun d => d.deepReferenceMap))

end Cms

/-! ## incrementalTranslationService.js — relationship access -/

/-- Falsiness of `metadata.lastTranslatedVersion` (absent or 0). -/
def jsFalsyNum (o : Option Int) : Bool :=
  match o with
  | none => true
  | some n => n == 0

namespace Svc

/-- `getRelationship`: Contentful first; on a miss, the tracking file —
refusing deep-references-shaped files and files without a truthy
`metadata.lastTranslatedVersion`. -/
def getRelationship (sourceEntryId targetEntryId : String) :
    IncM (Option StoredDoc) := do
  let s ← get
  let fromCms? ←
    if s.contentful.isSome then
      Cms.getRelationshipMetadata sourceEntryId targetEntryId
    else pure none
  match fromCms? with
  | some data => pure (some data)
  | none =>
    let filename := sourceEntryId ++ "_" ++ targetEntryId ++ ".json"
    match objGet s.fileStore filename with
    | none => pure none
    | some data =>
      if jsTruthyStr data.sourceEntryId && jsTruthyStr data.targetEntryId
          && data.referenceTree.isSome then
        pure none
      else
        match data.metadata with
        | none => pure none
        | some m =>
          if jsFalsyNum m.lastTranslatedVersion then pure none
          else pure (some data)

/-- `createOrUpdateRelationship`: builds the relationship record with fresh
`lastUpdated`/`createdAt` timestamps and stores it — in Contentful when the
metadata service is initialized (returning on success), otherwise in the
tracking file, where an existing file's `createdAt` is preserved. -/
def createOrUpdateRelationship (w : IncWorld) (sourceEntryId targetEntryId : String)
    (lastTranslatedVersion : Int) (translationContext : TransCtx)
    (fieldHashes cloneMapping : List (String × String)) : IncM Unit := do
  let relationshipData : StoredDoc :=
    { sourceEntryId := some sourceEntryId
      targetEntryId := some targetEntryId
      metadata := some
        { lastTranslatedVersion := some lastTranslatedVersion
          lastUpdated := some w.nowISO
          createdAt := some w.nowISO }
      translationContext := some translationContext
      fieldHashes := some fieldHashes
      cloneMapping := some cloneMapping }
  let s0 ← get
  let storedInCms ←
    if s0.contentful.isSome then
      try
        Cms.storeRelationshipMetadata sourceEntryId targetEntryId relationshipData
        pure true
      catch _ => pure false
    else pure false
  if storedInCms then pure ()
  else do
    let filename := sourceEntryId ++ "_" ++ targetEntryId ++ ".json"
    let s ← get
    let relationshipData2 :=
      match objGet s.fileStore filename with
      | some existingData =>
        match existingData.metadata with
        | some m =>
          { relationshipData with metadata := some (MetaDoc.mk
              (some lastTranslatedVersion) (some w.nowISO) m.createdAt) }
        | none => relationshipData
      | none => relationshipData
    set { s with fileStore := objSet s.fileStore filename relationshipData2 }

/-- The incremental service's `translateText`: skipped without an API key or
for blank text; source/target languages default to DE/IT; a provider error
returns the original text. -/
def translateText (deeplApiKey : Bool) (tr : Translator) (text : String)
    (translationContext : TransCtx) : String :=
  if !deeplApiKey || strTrim text == "" then text
  else
    let sourceLanguage :=
      if translationContext.sourceLanguage == "" then "DE"
      else translationContext.sourceLanguage
    let targetLanguage :=
      if translationContext.targetLanguage == "" then "IT"
      else translationContext.targetLanguage
    match tr.call text sourceLanguage targetLanguage TrOpts.noOpts with
    | some result => result
    | none => text

end Svc

end CT

namespace CT

/-! ## deepReferenceTracker.js — stored snapshots and change detection -/

namespace Tracker

/-- `storeDeepReferenceMap` (tracker side): Contentful first, tracking file
on failure or when the metadata service is missing. -/
def storeDeepReferenceMapM (w : IncWorld) (sourceEntryId targetEntryId : String)
    (deepMap : DeepMap) : IncM Unit := do
  let s0 ← get
  let storedInCms ←
    if s0.contentful.isSome then
      try
        Cms.storeDeepReferenceMap w sourceEntryId targetEntryId deepMap
        pure true
      catch _ => pure false
    else pure false
  if storedInCms then pure ()
  else do
    let deepMapFile := sourceEntryId ++ "_" ++ targetEntryId ++ "_deep_refs.json"
    modify (fun s => { s with
      fileStore := objSet s.fileStore deepMapFile (docOfDeepMap deepMap) })

/-- `getStoredDeepReferenceMap`: Contentful first, tracking file fallback,
`null` when neither has a snapshot. -/
def getStoredDeepReferenceMap (sourceEntryId targetEntryId : String) :
    IncM (Option DeepMap) := do
  let s ← get
  let fromCms? ←
    if s.contentful.isSome then
      Cms.getDeepReferenceMap sourceEntryId targetEntryId
    else pure none
  match fromCms? with
  | some deepMap => pure (some deepMap)
  | none =>
    let deepMapFile := sourceEntryId ++ "_" ++ targetEntryId ++ "_deep_refs.json"
    match objGet s.fileStore deepMapFile with
    | none => pure none
    | some doc => pure (some (deepOfDoc doc))

/-- `buildCurrentReferenceMapForComparison`: fetches the source entry (a
fetch failure throws) and builds the fresh tree and its flattening, without
storing anything. -/
def buildCurrentReferenceMapForComparison (w : IncWorld) (cfg : TrackerCfg)
    (sourceEntryId targetEntryId : String) : IncM DeepMap := do
  match w.env.getEntry sourceEntryId with
  | none => throw ("entry not found: " ++ sourceEntryId)
  | some sourceEntry =>
    let referenceTree := buildReferenceTree w.env w.hashFn w.nowISO cfg.maxDepth
      1000000 sourceEntry 0 none none
    pure
      { sourceEntryId := sourceEntryId
        targetEntryId := targetEntryId
        maxDepth := cfg.maxDepth
        lastScanned := w.nowISO
        referenceTree := referenceTree
        flattenedRefs := flattenReferenceTree referenceTree }

/-- `getRelationshipForChildEntry`: scans the tracking directory's
relationship files for one whose clone mapping mentions the entry (as a
substring of a source key or as a target id). -/
def getRelationshipForChildEntry (s : IncState) (entryId : String) :
    Option StoredDoc :=
  go s.fileStore
where
  go : List (String × StoredDoc) → Option StoredDoc
    | [] => none
    | (file, doc) :: rest =>
      if strEndsWith file ".json" && !(isSubstr "_deep_refs" file) then
        match doc.cloneMapping with
        | some cloneMapping =>
          if cloneMapping.any
              (fun p => isSubstr entryId p.1 || p.2 == entryId) then
            some doc
          else go rest
        | none => go rest
      else go rest

/-- One field-level change of a child entry (also the shape of the basic
field changes of the change detection service). -/
structure FieldChange where
  fieldName : String
  typeTag : String := ""
  changeType : String
  oldValue : Option JValue := none
  newValue : Option JValue := none
  isTranslatable : Bool
  needsTranslation : Bool

/-- `detectChildEntryFieldChanges` (state read only, errors caught inside):
re-hashes the child's current object-valued fields and compares them with
the per-field hashes of a relationship whose clone mapping mentions the
child. -/
def detectChildEntryFieldChanges (w : IncWorld) (s : IncState) (entryId : String) :
    List FieldChange :=
  match w.env.getEntry entryId with
  | none => []
  | some currentEntry =>
    let currentFieldHashes := generateFieldHashes w.hashFn currentEntry
    let relationship? := getRelationshipForChildEntry s entryId
    let storedFieldHashes :=
      match relationship? with
      | some r => r.fieldHashes.getD []
      | none => []
    currentFieldHashes.foldl
      (fun fieldChanges p =>
        let storedHash? := objGet storedFieldHashes p.1
        if !(jsTruthyStr storedHash?) || storedHash? ≠ some p.2 then
          let fieldValue := objGet currentEntry.fields p.1
          fieldChanges ++
            [{ fieldName := p.1
               changeType := if jsTruthyStr storedHash? then "modified" else "added"
               newValue := fieldValue
               isTranslatable :=
                 isFieldTranslatable p.1 (fieldValue.getD JValue.null)
               needsTranslation :=
                 isFieldTranslatable p.1 (fieldValue.getD JValue.null) }]
        else fieldChanges)
      []

/-- One changed reference of the deep diff. -/
structure ChangedRef where
  id : String
  depth : Nat
  oldVersion : Nat
  newVersion : Nat
  parentField : Option String
  fieldChanges : List FieldChange

/-- One new reference of the deep diff. -/
structure NewRef where
  id : String
  depth : Nat
  parentId : String
  parentField : String
  needsTranslation : Bool

/-- The result of `detectDeepReferenceChanges`. -/
structure DeepChangesR where
  changedReferences : List ChangedRef
  newReferences : List NewRef
  removedReferences : List String

/-- The loop of `detectDeepReferenceChanges` over
`Object.entries(currentRefs)`: a reference present in the stored map is
changed when its version grew or its content hash differs (with per-field
changes computed for it); one absent from the stored map is new. -/
def changedNewLoop (w : IncWorld) (s : IncState) (cfg : TrackerCfg)
    (sourceEntryId : String) (storedRefs : List (String × RefNode)) :
    List (String × RefNode) → List ChangedRef × List NewRef
  | [] => ([], [])
  | (refId, currentRef) :: rest =>
    let (cs, ns) := changedNewLoop w s cfg sourceEntryId storedRefs rest
    match objGet storedRefs refId with
    | some storedRef =>
      let versionChanged := currentRef.version > storedRef.version
      let contentChanged := currentRef.contentHash ≠ storedRef.contentHash
      if versionChanged || contentChanged then
        ({ id := refId
           depth := currentRef.depth
           oldVersion := storedRef.version
           newVersion := currentRef.version
           parentField := currentRef.parentField
           fieldChanges := detectChildEntryFieldChanges w s refId } :: cs, ns)
      else (cs, ns)
    | none =>
      (cs,
       { id := refId
         depth := currentRef.depth
         parentId := jsOrStr currentRef.parentId sourceEntryId
         parentField := jsOrStr currentRef.parentField "unknown"
         needsTranslation := cfg.autoTranslateNewRefs } :: ns)

/-- The comparison part of `detectDeepReferenceChanges` (stored map
present): classify current references as changed or new, and stored
references absent from the current map as removed. -/
def detectDeepReferenceChangesCore (w : IncWorld) (s : IncState) (cfg : TrackerCfg)
    (sourceEntryId : String) (storedRefs currentRefs : List (String × RefNode)) :
    DeepChangesR :=
  let (changed, newRefs) := changedNewLoop w s cfg sourceEntryId storedRefs currentRefs
  { changedReferences := changed
    newReferences := newRefs
    removedReferences :=
      (storedRefs.map (fun p => p.1)).filter
        (fun refId => !(objHasKey currentRefs refId)) }

/-- `detectDeepReferenceChanges`: reads the stored snapshot first, builds the
current map without storing it; with no stored snapshot every current
reference except the source itself is new and the snapshot is stored now;
otherwise the diff is computed and the snapshot update is deferred. -/
def detectDeepReferenceChanges (w : IncWorld) (cfg : TrackerCfg)
    (sourceEntryId targetEntryId : String) : IncM DeepChangesR := do
  let storedMap? ← getStoredDeepReferenceMap sourceEntryId targetEntryId
  let currentMap ← buildCurrentReferenceMapForComparison w cfg
    sourceEntryId targetEntryId
  match storedMap? with
  | none =>
    let newRefs :=
      (currentMap.flattenedRefs.filter (fun p => p.1 ≠ sourceEntryId)).map
        (fun p =>
          { id := p.1
            depth := p.2.depth
            parentId := jsOrStr p.2.parentId sourceEntryId
            parentField := jsOrStr p.2.parentField "unknown"
            needsTranslation := cfg.autoTranslateNewRefs : NewRef })
    storeDeepReferenceMapM w sourceEntryId targetEntryId currentMap
    pure { changedReferences := [], newReferences := newRefs,
           removedReferences := [] }
  | some storedMap => do
    let s ← get
    pure (detectDeepReferenceChangesCore w s cfg sourceEntryId
      storedMap.flattenedRefs currentMap.flattenedRefs)

/-- `getStoredDeepReferences`: the flattened stored snapshot, `null` when
absent. -/
def getStoredDeepReferences (sourceEntryId targetEntryId : String) :
    IncM (Option (List (String × RefNode))) := do
  let deepMap? ← getStoredDeepReferenceMap sourceEntryId targetEntryId
  match deepMap? with
  | none => pure none
  | some deepMap => pure (some deepMap.flattenedRefs)

/-- `updateStoredReferencesAfterProcessing`: rebuilds the current map and
stores it as the new snapshot; errors are only logged. -/
def updateStoredReferencesAfterProcessing (w : IncWorld) (cfg : TrackerCfg)
    (sourceEntryId targetEntryId : String) : IncM Unit := do
  try
    let currentMap ← buildCurrentReferenceMapForComparison w cfg
      sourceEntryId targetEntryId
    storeDeepReferenceMapM w sourceEntryId targetEntryId currentMap
  catch _ => pure ()

end Tracker

end CT

namespace CT

/-! ## changeDetectionService.js (carried inside deepReferenceTracker.js) -/

namespace Cds

/-- The change detection service's `isTranslatableField` (denylist includes
the copy-as-is fields and `culture`; otherwise links and link arrays are
excluded and strings or localized objects with string values are
translatable). -/
def isTranslatableField (fieldName : String) (fieldValue : JValue) : Bool :=
  let nonTranslatableFields :=
    ["slug", "sys_", "internalName", "id", "contentfulMetadata", "parentPage",
     "authors", "productionUrl", "makeModel", "publicationDate",
     "lastModificationDate", "makeIds", "modelIds", "trackingName", "domain",
     "pageType", "metaIndexToggle", "enableFeaturedArticle",
     "showInGoogleNews", "hasHighlightedText", "isPrimary", "spotlight",
     "publishedCounter", "fieldStatus", "automationTags", "culture"]
  if nonTranslatableFields.any (fun field => strStartsWith fieldName field) then false
  else
    match fieldValue with
    | JValue.link _ _ => false
    | JValue.arr (JValue.link _ _ :: _) => false
    | JValue.str _ => true
    | JValue.arr _ => false
    | JValue.obj props =>
      props.any (fun p => match p.2 with | JValue.str _ => true | _ => false)
    | _ => false

/-- The change detection service's `generateFieldHashes`: one hash per
translatable field, over the field value's compact JSON. -/
def generateFieldHashes (hashFn : String → String) (entry : Entry) :
    List (String × String) :=
  entry.fields.foldl
    (fun fieldHashes p =>
      if isTranslatableField p.1 p.2 then
        objSet fieldHashes p.1 (hashFn (jsonStringify p.2))
      else fieldHashes)
    []

/-- One item of a change's `deepChanges` list (changed, new, or removed
reference, possibly tagged with `type`). -/
structure DeepChangeItem where
  id : Option String := none
  refId : Option String := none
  typeTag : String := ""
  depth : Nat := 0
  oldVersion : Option Nat := none
  newVersion : Option Nat := none
  parentId : Option String := none
  parentField : Option String := none
  fieldChanges : List Tracker.FieldChange := []
  needsTranslation : Option Bool := none

/-- A changed reference, as pushed into a grouped field change (`{...ref,
type}`). -/
def itemOfChanged (tag : String) (r : Tracker.ChangedRef) : DeepChangeItem where
  id := some r.id
  typeTag := tag
  depth := r.depth
  oldVersion := some r.oldVersion
  newVersion := some r.newVersion
  parentField := r.parentField
  fieldChanges := r.fieldChanges

/-- A new reference, as pushed into a grouped field change. -/
def itemOfNew (tag : String) (r : Tracker.NewRef) : DeepChangeItem where
  id := some r.id
  typeTag := tag
  depth := r.depth
  parentId := some r.parentId
  parentField := some r.parentField
  needsTranslation := some r.needsTranslation

/-- One change reported by `detectParentFieldChanges` (a basic field change
or a grouped reference-field change). -/
structure Change where
  fieldName : String
  typeTag : String
  changeType : String
  oldValue : Option JValue := none
  newValue : Option JValue := none
  isTranslatable : Bool
  needsTranslation : Bool
  deepChanges : List DeepChangeItem := []
  referencedEntries : List Entry := []

/-- `detectBasicFieldChanges`: per-field hash diff of the source entry
against the relationship's stored `fieldHashes`; hash mismatches on
translatable fields are added/modified changes, stored hashes without a
current counterpart are deleted changes. -/
def detectBasicFieldChanges (w : IncWorld) (sourceEntry : Entry)
    (sourceEntryId targetEntryId : String) : IncM (List Change) := do
  let relationship? ← Svc.getRelationship sourceEntryId targetEntryId
  let storedFieldHashes :=
    ((relationship?.bind (fun r => r.fieldHashes))).getD []
  let currentFieldHashes := generateFieldHashes w.hashFn sourceEntry
  let changes1 :=
    currentFieldHashes.foldl
      (fun changes p =>
        let storedHash? := objGet storedFieldHashes p.1
        if storedHash? ≠ some p.2 then
          let fieldValue := (objGet sourceEntry.fields p.1).getD JValue.null
          if isTranslatableField p.1 fieldValue then
            changes ++
              [{ fieldName := p.1
                 typeTag := "field"
                 changeType := if jsTruthyStr storedHash? then "modified" else "added"
                 newValue := objGet sourceEntry.fields p.1
                 isTranslatable := true
                 needsTranslation := true }]
          else changes
        else changes)
      []
  let changes2 :=
    (storedFieldHashes.map (fun p => p.1)).foldl
      (fun changes fieldName =>
        if !(objHasKey currentFieldHashes fieldName) then
          changes ++
            [{ fieldName := fieldName
               typeTag := "field"
               changeType := "deleted"
               isTranslatable := false
               needsTranslation := false }]
        else changes)
      []
  pure (changes1 ++ changes2)

mutual

/-- `fieldContainsReference`: localized objects are scanned value-wise,
arrays item-wise (`item?.sys?.id === refId`), single links directly. -/
def fieldContainsReference (fieldValue : JValue) (refId : String) : Bool :=
  match fieldValue with
  | JValue.obj props => valuesContainReference props refId
  | JValue.arr items => itemsContainReference items refId
  | JValue.link _ id => id == refId
  | _ => false

/-- The locale-value loop of `fieldContainsReference`. -/
def valuesContainReference : List (String × JValue) → String → Bool
  | [], _ => false
  | (_, v) :: rest, refId =>
    fieldContainsReference v refId || valuesContainReference rest refId

/-- The array loop of `fieldContainsReference`. -/
def itemsContainReference : List JValue → String → Bool
  | [], _ => false
  | JValue.link _ id :: rest, refId =>
    id == refId || itemsContainReference rest refId
  | _ :: rest, refId => itemsContainReference rest refId

end

mutual

/-- `extractReferencesFromField` of the change detection service: the links
of a localized object's values, of an array, or a single link. -/
def extractReferencesFromField (fieldValue : JValue) : List JValue :=
  match fieldValue with
  | JValue.obj props => extractRefsFromValues props
  | JValue.arr items => extractRefsFromItems items
  | JValue.link lt id => [JValue.link lt id]
  | _ => []

/-- The locale-value loop of `extractReferencesFromField`. -/
def extractRefsFromValues : List (String × JValue) → List JValue
  | [] => []
  | (_, v) :: rest => extractReferencesFromField v ++ extractRefsFromValues rest

/-- The array loop of `extractReferencesFromField`. -/
def extractRefsFromItems : List JValue → List JValue
  | [] => []
  | JValue.link lt id :: rest => JValue.link lt id :: extractRefsFromItems rest
  | _ :: rest => extractRefsFromItems rest

end

mutual

/-- `fieldContainsNestedReference`: fetches each reference of the field and
searches the referenced entry's fields for the target reference, recursing
until `maxDepth` (fetch failures skip the entry).  `fuel` bounds the walk. -/
def fieldContainsNestedReference (w : IncWorld) :
    Nat → JValue → String → Nat → Nat → Bool
  | 0, _, _, _, _ => false
  | fuel + 1, fieldValue, refId, currentDepth, maxDepth =>
    if currentDepth ≥ maxDepth then false
    else
      nestedRefLoop w fuel (extractReferencesFromField fieldValue) refId
        currentDepth maxDepth

/-- The reference loop of `fieldContainsNestedReference`. -/
def nestedRefLoop (w : IncWorld) :
    Nat → List JValue → String → Nat → Nat → Bool
  | 0, _, _, _, _ => false
  | _ + 1, [], _, _, _ => false
  | fuel + 1, ref :: rest, refId, currentDepth, maxDepth =>
    (match ref with
     | JValue.link _ id =>
       if id ≠ "" then
         match w.env.getEntry id with
         | some referencedEntry =>
           nestedFieldLoop w fuel referencedEntry.fields refId currentDepth maxDepth
         | none => false
       else false
     | _ => false) ||
    nestedRefLoop w fuel rest refId currentDepth maxDepth

/-- The field loop over a referenced entry's fields inside
`fieldContainsNestedReference`. -/
def nestedFieldLoop (w : IncWorld) :
    Nat → List (String × JValue) → String → Nat → Nat → Bool
  | 0, _, _, _, _ => false
  | _ + 1, [], _, _, _ => false
  | fuel + 1, (_, nestedFieldValue) :: rest, refId, currentDepth, maxDepth =>
    fieldContainsReference nestedFieldValue refId ||
    fieldContainsNestedReference w fuel nestedFieldValue refId
      (currentDepth + 1) maxDepth ||
    nestedFieldLoop w fuel rest refId currentDepth maxDepth

end

/-- `findFieldContainingReference`: first the field directly containing the
reference, then the first field containing it nested (up to depth 3). -/
def findFieldContainingReference (w : IncWorld) (sourceEntry : Entry)
    (refId : String) : Option String :=
  match sourceEntry.fields.find?
      (fun p => fieldContainsReference p.2 refId) with
  | some p => some p.1
  | none =>
    match sourceEntry.fields.find?
        (fun p => fieldContainsNestedReference w 100 p.2 refId 1 3) with
    | some p => some p.1
    | none => none

/-- `getReferencedEntriesForField`: the fetched entry references of one
field (fetch failures skipped). -/
def getReferencedEntriesForField (w : IncWorld) (sourceEntry : Entry)
    (fieldName : String) : List Entry :=
  match objGet sourceEntry.fields fieldName with
  | none => []
  | some fieldValue =>
    (extractReferencesFromField fieldValue).foldl
      (fun entries ref =>
        match ref with
        | JValue.link lt id =>
          if id ≠ "" && lt == "Entry" then
            match w.env.getEntry id with
            | some entry => entries ++ [entry]
            | none => entries
          else entries
        | _ => entries)
      []

/-- `groupReferenceChangesByField`: changed references grouped by the source
field containing them (references with no containing field dropped), each
tagged `changed`. -/
def groupReferenceChangesByField (w : IncWorld) (sourceEntry : Entry)
    (changedReferences : List Tracker.ChangedRef) :
    List (String × List DeepChangeItem) :=
  changedReferences.foldl
    (fun fieldChanges refChange =>
      match findFieldContainingReference w sourceEntry refChange.id with
      | some containingField =>
        let group := (objGet fieldChanges containingField).getD []
        objSet fieldChanges containingField
          (group ++ [itemOfChanged "changed" refChange])
      | none => fieldChanges)
    []

/-- `groupNewReferencesByField`: new references grouped by the containing
source field (untagged; the caller tags them `new`). -/
def groupNewReferencesByField (w : IncWorld) (sourceEntry : Entry)
    (newReferences : List Tracker.NewRef) :
    List (String × List Tracker.NewRef) :=
  newReferences.foldl
    (fun fieldChanges newRef =>
      match findFieldContainingReference w sourceEntry newRef.id with
      | some containingField =>
        let group := (objGet fieldChanges containingField).getD []
        objSet fieldChanges containingField (group ++ [newRef])
      | none => fieldChanges)
    []

/-- `groupRemovedReferencesByField`: removed reference ids grouped by the
`parentField` recorded in the stored snapshot (ids without one dropped). -/
def groupRemovedReferencesByField (removedReferences : List String)
    (storedDeepRefs : List (String × RefNode)) :
    List (String × List String) :=
  removedReferences.foldl
    (fun fieldChanges refId =>
      match objGet storedDeepRefs refId with
      | some storedRef =>
        match storedRef.parentField with
        | some fieldName =>
          if fieldName ≠ "" then
            let group := (objGet fieldChanges fieldName).getD []
            objSet fieldChanges fieldName (group ++ [refId])
          else fieldChanges
        | none => fieldChanges
      | none => fieldChanges)
    []

/-- `storedDeepRefs[ref]?.depth || 1` (absent or 0 gives 1). -/
def jsOrNat (o : Option Nat) (d : Nat) : Nat :=
  match o with
  | none => d
  | some n => if n = 0 then d else n

/-- `detectParentFieldChanges`: basic per-field hash changes, then — when
deep tracking is initialized — the deep diff, grouped into
enhanced-reference-field changes for changed, new and removed references,
plus one direct-deep-references change for nested (depth > 1) changed or new
references.  A deep-detection error leaves the basic changes. -/
def detectParentFieldChanges (w : IncWorld) (sourceEntry : Entry)
    (_lastTranslatedVersion : Option Int) (sourceEntryId targetEntryId : String) :
    IncM (List Change) := do
  let basicChanges ← detectBasicFieldChanges w sourceEntry sourceEntryId targetEntryId
  let s ← get
  match s.cdsTracker with
  | none => pure basicChanges
  | some cfg =>
    try
      let deepChanges ← Tracker.detectDeepReferenceChanges w cfg
        sourceEntryId targetEntryId
      let enhancedChanged :=
        if deepChanges.changedReferences.length > 0 then
          (groupReferenceChangesByField w sourceEntry
              deepChanges.changedReferences).map
            (fun p =>
              { fieldName := p.1
                typeTag := "enhanced-reference-field"
                changeType := "modified"
                isTranslatable := true
                needsTranslation := true
                deepChanges := p.2
                referencedEntries :=
                  getReferencedEntriesForField w sourceEntry p.1 : Change })
        else []
      let enhancedNew :=
        if deepChanges.newReferences.length > 0 then
          (groupNewReferencesByField w sourceEntry deepChanges.newReferences).map
            (fun p =>
              { fieldName := p.1
                typeTag := "enhanced-reference-field"
                changeType := "added"
                isTranslatable := true
                needsTranslation := true
                deepChanges := p.2.map (itemOfNew "new")
                referencedEntries :=
                  getReferencedEntriesForField w sourceEntry p.1 : Change })
        else []
      let enhancedRemoved ←
        if deepChanges.removedReferences.length > 0 then do
          let storedDeepRefs? ← Tracker.getStoredDeepReferences
            sourceEntryId targetEntryId
          match storedDeepRefs? with
          | some storedDeepRefs =>
            pure ((groupRemovedReferencesByField deepChanges.removedReferences
                storedDeepRefs).map
              (fun p =>
                { fieldName := p.1
                  typeTag := "enhanced-reference-field"
                  changeType := "deleted"
                  isTranslatable := false
                  needsTranslation := false
                  deepChanges := p.2.map
                    (fun ref =>
                      { refId := some ref
                        typeTag := "removed"
                        depth := jsOrNat
                          ((objGet storedDeepRefs ref).map
                            (fun r => r.depth)) 1 : DeepChangeItem })
                  referencedEntries := [] : Change }))
          | none => pure []
        else pure []
      let directRefChanges :=
        (deepChanges.changedReferences.filter (fun r => r.depth > 1)).map
            (itemOfChanged "") ++
        (deepChanges.newReferences.filter (fun r => r.depth > 1)).map
            (fun r => { itemOfNew "" r with typeTag := "" })
      let directChanges :=
        if directRefChanges.length > 0 then
          [{ fieldName := "direct-deep-references"
             typeTag := "direct-reference-translation"
             changeType := "modified"
             isTranslatable := true
             needsTranslation := true
             deepChanges := directRefChanges
             referencedEntries := [] : Change }]
        else []
      pure (basicChanges ++ enhancedChanged ++ enhancedNew ++ enhancedRemoved ++
        directChanges)
    catch _ => pure basicChanges

end Cds

end CT

namespace CT

/-! ## incrementalTranslationService.js — status check -/

/-- The `metadata` part of a status result. -/
structure StatusMeta where
  lastTranslatedVersion : Option Int
  currentVersion : Nat
  lastUpdated : Option String
  sourceLanguage : String
  targetLanguage : String

/-- The result of `checkUpdateStatus`. -/
structure StatusResult where
  hasRelationship : Bool
  hasChanges : Option Bool := none
  upToDate : Option Bool := none
  error : Option String := none
  changes : List Cds.Change := []
  conflicts : List Unit := []
  metadata : Option StatusMeta := none

namespace Svc

/-- `initializeDeepTrackingAsync`: constructs the tracker and assigns it to
`changeDetectionService.deepReferenceTracker` (`maxDepth` defaulting to 3,
`autoTranslateNewRefs` to anything but an explicit `false`).  The service's
own `deepReferenceTracker` field is not touched. -/
def initializeDeepTrackingAsync (maxDepth? : Option Nat)
    (autoTranslateNewRefs? : Option Bool) : IncM Unit :=
  modify (fun s =>
    { s with cdsTracker := some (TrackerCfg.mk
        (Cds.jsOrNat maxDepth? 3)
        (autoTranslateNewRefs? ≠ some false)) })

/-- `detectConflicts` (stub): always empty. -/
def detectConflicts (_sourceEntryId _targetEntryId : String) : List Unit := []

/-- `checkUpdateStatus`: relationship lookup, source fetch, deep-tracking
initialization, enhanced change detection, conflict stub; then — only when
`this.deepReferenceTracker` is set, which never happens — the stored
reference map refresh; finally the status object.  Errors produce a
failure result. -/
def checkUpdateStatus (w : IncWorld) (sourceEntryId targetEntryId : String) :
    IncM StatusResult := do
  try
    let relationship? ← getRelationship sourceEntryId targetEntryId
    match relationship? with
    | none =>
      pure { hasRelationship := false
             error := some "No translation relationship found between these entries." }
    | some relationship =>
      match w.env.getEntry sourceEntryId with
      | none => throw ("entry not found: " ++ sourceEntryId)
      | some sourceEntry => do
        let currentVersion := pubOrVer sourceEntry
        let lastTranslatedVersion :=
          match relationship.metadata with
          | some m => m.lastTranslatedVersion
          | none => none
        initializeDeepTrackingAsync (some 3) (some true)
        let changes ← Cds.detectParentFieldChanges w sourceEntry
          lastTranslatedVersion sourceEntryId targetEntryId
        let conflicts := detectConflicts sourceEntryId targetEntryId
        let hasChanges := changes.length > 0
        let s ← get
        match s.svcTracker with
        | some cfg =>
          Tracker.updateStoredReferencesAfterProcessing w cfg
            sourceEntryId targetEntryId
        | none => pure ()
        pure
          { hasRelationship := true
            hasChanges := some hasChanges
            upToDate := some (!hasChanges)
            changes := changes
            conflicts := conflicts
            metadata := some
              { lastTranslatedVersion := lastTranslatedVersion
                currentVersion := currentVersion
                lastUpdated :=
                  match relationship.metadata with
                  | some m => m.lastUpdated
                  | none => none
                sourceLanguage :=
                  (relationship.translationContext.map
                    (fun c => c.sourceLanguage)).getD ""
                targetLanguage :=
                  (relationship.translationContext.map
                    (fun c => c.targetLanguage)).getD "" } }
  catch e =>
    pure { hasRelationship := false
           error := some e
           hasChanges := some false }

end Svc

end CT

namespace CT

/-! ## Claim C1 — first-clone cycle behavior -/

/-- The two-entry cycle world of claim C1: cmsPage `A` (culture de-DE) whose
`ref` field links `B`, and scText `B` whose `ref2` field links back to
`A`. -/
def c1EntryA : Entry where
  id := "A"
  contentTypeId := "cmsPage"
  version := 3
  fields :=
    [("culture", JValue.obj [("en-US-POSIX", JValue.str "de-DE")]),
     ("ref", JValue.obj [("en-US-POSIX", JValue.link "Entry" "B")])]

/-- The second entry of the C1 cycle. -/
def c1EntryB : Entry where
  id := "B"
  contentTypeId := "scText"
  version := 2
  fields := [("ref2", JValue.obj [("en-US-POSIX", JValue.link "Entry" "A")])]

/-- The C1 CMS world. -/
def c1Env : Env where
  entries := [("A", c1EntryA), ("B", c1EntryB)]
  contentTypes :=
    [("cmsPage", ⟨"cmsPage",
      [⟨"culture", "Symbol", false, []⟩, ⟨"ref", "Link", false, []⟩]⟩),
     ("scText", ⟨"scText", [⟨"ref2", "Link", false, []⟩]⟩)]

/-- Clone configuration for C1: defaults, no translator. -/
def c1Cfg : CloneConfig := defaultCloneConfig none false

/-- The C1 clone run: `cloneEntry` on source `A` towards Italian, from the
fresh state. -/
def c1Run :
    Except String (String × List (String × String)) × CloneState :=
  ((cloneEntry c1Cfg { env := c1Env } 50 "A" "it").run).run {}

/-- C1: the claim that a first clone creates at most one target entry per
source id — and that the cycle A→B→A yields exactly one clone A' and one
clone B' with A' linking to B' and B' linking to A' — fails on the code.
On the two-entry cycle the run creates three entries: `new0` and `new2` are
both clones of source `A` (`createdFrom` lists `A` twice), `B`'s clone
`new1` links to the first clone `new0`, which the final clone map then
abandons by remapping `Entry:A` to `new2`, and `new0` still links to the
original source entry `B` rather than to `B`'s clone.  The root of a clone
is never protected by the processing set and is memoized only after its
entry is created, so a cycle back to the root clones it a second time. -/
theorem c1_cycle_clone_breaks_at_most_one_clone_invariant :
    c1Run.fst = Except.ok ("new2", [("Entry:A", "new2"), ("Entry:B", "new1")]) ∧
    c1Run.snd.createdFrom = [("A", "new0"), ("B", "new1"), ("A", "new2")] ∧
    c1Run.snd.created.map (fun c => (c.id, c.fields)) =
      [("new0",
        [("culture", JValue.obj [("en-US-POSIX", JValue.str "it-IT")]),
         ("ref", JValue.obj [("en-US-POSIX", JValue.link "Entry" "B")])]),
       ("new1",
        [("ref2", JValue.obj [("en-US-POSIX", JValue.link "Entry" "new0")])]),
       ("new2",
        [("culture", JValue.obj [("en-US-POSIX", JValue.str "it-IT")]),
         ("ref", JValue.obj [("en-US-POSIX", JValue.link "Entry" "new1")])])] :=
  ⟨rfl, rfl, rfl⟩

end CT

namespace CT

/-! ## Claim C3 — reference tree invariants -/

mutual

/-- Does any node of the tree repeat an id already on its root-to-leaf
path (the property the claim asserts never happens)? -/
def nodeRepeatsOnPath : RefNode → List String → Bool
  | RefNode.mk i _ _ _ _ _ _ children, ancestors =>
    ancestors.contains i || childRepeatsOnPath children (i :: ancestors)
/-- The child loop of `nodeRepeatsOnPath`. -/
def childRepeatsOnPath : List RefNode → List String → Bool
  | [], _ => false
  | c :: cs, ancestors =>
    nodeRepeatsOnPath c ancestors || childRepeatsOnPath cs ancestors
end

/-- The reference tree built over the C1 cycle world (well-formed CMS,
default `maxDepth` 3, ample fuel). -/
def c3Tree : RefNode :=
  Tracker.buildReferenceTree c1Env id "now" 3 100 c1EntryA 0 none none

/-- C3 counterexample: the claim that no entry id appears twice on a single
root-to-leaf path of a tree returned by `buildReferenceTree` is false.  On
the well-formed two-entry cycle world A→B→A the returned tree has the path
A(0) → B(1) → A(2) → B(3): both ids repeat on one path — the code only
guards against an immediate self-reference (`ref.sys.id !== entryId`), not
against ancestors further up. -/
theorem c3_path_repeats_id_counterexample :
    Env.wf c1Env = true ∧ nodeRepeatsOnPath c3Tree [] = true :=
  ⟨rfl, rfl⟩

mutual

/-- The amended tree invariant, as a decidable check: every node's depth is
at most `maxDepth`, a node at `maxDepth` has no children, and every child
has depth one more than its parent and an id different from its direct
parent's. -/
def checkTreeInv (maxDepth : Nat) : RefNode → Bool
  | RefNode.mk i _ d _ _ _ _ children =>
    decide (d ≤ maxDepth) &&
    (decide (d < maxDepth) || children.isEmpty) &&
    checkChildrenInv maxDepth i d children
/-- The child part of `checkTreeInv`. -/
def checkChildrenInv (maxDepth : Nat) (parentId : String) (parentDepth : Nat) :
    List RefNode → Bool
  | [] => true
  | c :: cs =>
    (c.depth == parentDepth + 1) && (c.id != parentId) &&
    checkTreeInv maxDepth c && checkChildrenInv maxDepth parentId parentDepth cs
end

/-- In a well-formed world, `getEntry` returns an entry carrying the looked
up id. -/
lemma Env.getEntry_id {env : Env} (hwf : Env.wf env = true) {i : String} {e : Entry}
    (h : env.getEntry i = some e) : e.id = i := by
  rw [Env.getEntry, objGet] at h
  rcases hf : env.entries.find? (fun q => q.1 == i) with _ | q
  · rw [hf] at h; cases h
  · rw [hf] at h
    have hkey := List.find?_some hf
    have hmem := List.mem_of_find?_eq_some hf
    have hall := (List.all_eq_true.mp hwf) q hmem
    have h1 : q.2.id = q.1 := by simpa using hall
    have h2 : q.1 = i := by simpa using hkey
    have h3 : q.2 = e := by simpa using h
    rw [← h3, h1, h2]

/-- `checkChildrenInv` holds when every child satisfies the three
conditions. -/
lemma checkChildrenInv_of_forall {maxDepth : Nat} {pid : String} {pd : Nat}
    {l : List RefNode}
    (h : ∀ c ∈ l, c.depth = pd + 1 ∧ c.id ≠ pid ∧ checkTreeInv maxDepth c = true) :
    checkChildrenInv maxDepth pid pd l = true := by
  induction l with
  | nil => rfl
  | cons c cs ih =>
    rcases h c (List.mem_cons_self c cs) with ⟨h1, h2, h3⟩
    rw [checkChildrenInv, h3, ih (fun x hx => h x (List.mem_cons_of_mem c hx))]
    simp [h1, h2]

/-- A built node carries the entry's id and the depth it was built at. -/
lemma buildTree_node_id (env : Env) (hashFn : String → String) (nowISO : String)
    (maxDepth fuel : Nat) (entry : Entry) (d : Nat) (pid pf : Option String) :
    (Tracker.buildReferenceTree env hashFn nowISO maxDepth fuel entry d pid pf).id
      = entry.id ∧
    (Tracker.buildReferenceTree env hashFn nowISO maxDepth fuel entry d pid pf).depth
      = d := by
  cases fuel <;> exact ⟨rfl, rfl⟩

/-- The joint induction behind the C3 invariants, over the fuel of the
tracker's tree walk. -/
lemma tree_inv_aux (env : Env) (hashFn : String → String) (nowISO : String)
    (maxDepth : Nat) (hwf : Env.wf env = true) : ∀ fuel : Nat,
    (∀ entry d pid pf, d ≤ maxDepth →
      checkTreeInv maxDepth
        (Tracker.buildReferenceTree env hashFn nowISO maxDepth fuel entry d pid pf)
        = true) ∧
    (∀ entry d fields, d < maxDepth →
      ∀ n ∈ Tracker.scanFields env hashFn nowISO maxDepth fuel entry d fields,
        n.depth = d + 1 ∧ n.id ≠ entry.id ∧ checkTreeInv maxDepth n = true) ∧
    (∀ entry d fieldId refs, d < maxDepth →
      ∀ n ∈ Tracker.scanRefs env hashFn nowISO maxDepth fuel entry d fieldId refs,
        n.depth = d + 1 ∧ n.id ≠ entry.id ∧ checkTreeInv maxDepth n = true) ∧
    (∀ entry d fieldId ref, d < maxDepth →
      ∀ n ∈ Tracker.scanOneRef env hashFn nowISO maxDepth fuel entry d fieldId ref,
        n.depth = d + 1 ∧ n.id ≠ entry.id ∧ checkTreeInv maxDepth n = true) := by
  intro fuel
  induction fuel with
  | zero =>
    refine ⟨?_, ?_, ?_, ?_⟩
    · intro entry d pid pf hd
      rw [Tracker.buildReferenceTree, checkTreeInv]
      simp [hd, checkChildrenInv]
    · intro entry d fields _ n hn
      rw [Tracker.scanFields] at hn; cases hn
    · intro entry d fieldId refs _ n hn
      rw [Tracker.scanRefs] at hn; cases hn
    · intro entry d fieldId ref _ n hn
      rw [Tracker.scanOneRef] at hn; cases hn
  | succ fuel ih =>
    obtain ⟨ihP, ihF, ihR, ihO⟩ := ih
    refine ⟨?_, ?_, ?_, ?_⟩
    · intro entry d pid pf hd
      rw [Tracker.buildReferenceTree]
      by_cases hlt : d < maxDepth
      · rw [if_pos hlt, checkTreeInv]
        have hch := checkChildrenInv_of_forall
          (fun c hc => ihF entry d entry.fields hlt c hc)
        simp [hd, hlt, hch]
      · rw [if_neg hlt, checkTreeInv]
        simp [hd, checkChildrenInv]
    · intro entry d fields hlt n hn
      match fields with
      | [] => rw [Tracker.scanFields] at hn; cases hn
      | (fieldId, fieldValue) :: rest =>
        rw [Tracker.scanFields] at hn
        rcases List.mem_append.mp hn with h1 | h2
        · by_cases hrf : Tracker.isReferenceField fieldValue = true
          · by_cases htr : Tracker.shouldTrackReferenceField fieldId = true
            · rw [if_pos hrf, if_pos htr] at h1
              exact ihR entry d fieldId _ hlt n h1
            · rw [if_pos hrf, if_neg htr] at h1; cases h1
          · rw [if_neg hrf] at h1; cases h1
        · exact ihF entry d rest hlt n h2
    · intro entry d fieldId refs hlt n hn
      match refs with
      | [] => rw [Tracker.scanRefs] at hn; cases hn
      | ref :: rest =>
        rw [Tracker.scanRefs] at hn
        rcases List.mem_append.mp hn with h1 | h2
        · exact ihO entry d fieldId ref hlt n h1
        · exact ihR entry d fieldId rest hlt n h2
    · intro entry d fieldId ref hlt n hn
      match ref with
      | JValue.link lt refId =>
        rw [Tracker.scanOneRef] at hn
        by_cases hid : (refId ≠ "" && refId ≠ entry.id) = true
        · rw [if_pos hid] at hn
          by_cases hasset : Tracker.isAssetReference (JValue.link lt refId) = true
          · rw [if_pos hasset] at hn; cases hn
          · rw [if_neg hasset] at hn
            rcases hge : env.getEntry refId with _ | referencedEntry
            · rw [hge] at hn; cases hn
            · rw [hge] at hn
              have hn1 := List.mem_singleton.mp hn
              subst hn1
              obtain ⟨hnid, hndepth⟩ := buildTree_node_id env hashFn nowISO
                maxDepth fuel referencedEntry (d + 1) (some entry.id)
                (some fieldId)
              refine ⟨hndepth, ?_, ihP referencedEntry (d + 1) (some entry.id)
                (some fieldId) (Nat.succ_le_of_lt hlt)⟩
              rw [hnid, Env.getEntry_id hwf hge]
              simp only [Bool.and_eq_true, ne_eq, decide_not,
                Bool.not_eq_true'] at hid
              intro hcontra
              have hx := hid.2
              rw [hcontra] at hx
              simp at hx
        · rw [if_neg hid] at hn; cases hn
      | JValue.str s =>
        rw [Tracker.scanOneRef] at hn
        · cases hn
        · intro a b h; cases h
      | JValue.num v =>
        rw [Tracker.scanOneRef] at hn
        · cases hn
        · intro a b h; cases h
      | JValue.jbool b =>
        rw [Tracker.scanOneRef] at hn
        · cases hn
        · intro a b h; cases h
      | JValue.null =>
        rw [Tracker.scanOneRef] at hn
        · cases hn
        · intro a b h; cases h
      | JValue.arr l =>
        rw [Tracker.scanOneRef] at hn
        · cases hn
        · intro a b h; cases h
      | JValue.obj l =>
        rw [Tracker.scanOneRef] at hn
        · cases hn
        · intro a b h; cases h

end CT

namespace CT

/-- C3 (amended): in every reference tree returned by `buildReferenceTree`
on a well-formed CMS world, the root has depth 0, every child's depth
equals its parent's depth plus one and never exceeds `maxDepth`, a node at
`maxDepth` is recorded with no children — and, in place of the refuted
no-repetition-on-a-path clause, no child has the same id as its direct
parent (only immediate self-references are guarded; an id can still repeat
along a longer cycle, bounded only by the depth cap). -/
theorem c3_tree_invariants_amended (env : Env) (hashFn : String → String)
    (nowISO : String) (maxDepth fuel : Nat) (entry : Entry)
    (hwf : Env.wf env = true) :
    (Tracker.buildReferenceTree env hashFn nowISO maxDepth fuel entry 0
      none none).depth = 0 ∧
    checkTreeInv maxDepth
      (Tracker.buildReferenceTree env hashFn nowISO maxDepth fuel entry 0
        none none) = true :=
  ⟨(buildTree_node_id env hashFn nowISO maxDepth fuel entry 0 none none).2,
   (tree_inv_aux env hashFn nowISO maxDepth hwf fuel).1 entry 0 none none
     (Nat.zero_le maxDepth)⟩

/-- C3 witness: the amended invariants hold on the concrete cycle world. -/
theorem c3_tree_invariants_amended_witness :
    c3Tree.depth = 0 ∧ checkTreeInv 3 c3Tree = true :=
  c3_tree_invariants_amended c1Env id "now" 3 100 c1EntryA rfl

end CT

/-! ## C4: classification of the deep reference diff -/

namespace CT

/-- The loop over `Object.entries(currentRefs)` of
`detectDeepReferenceChanges`, written as two filterMaps over the current
references. -/
lemma changedNewLoop_eq (w : IncWorld) (s : IncState) (cfg : TrackerCfg)
    (srcId : String) (stored : List (String × RefNode)) :
    ∀ current : List (String × RefNode),
      Tracker.changedNewLoop w s cfg srcId stored current =
        (current.filterMap (fun p =>
          match objGet stored p.1 with
          | some storedRef =>
            if (decide (p.2.version > storedRef.version) ||
                decide (p.2.contentHash ≠ storedRef.contentHash)) = true then
              some
                { id := p.1
                  depth := p.2.depth
                  oldVersion := storedRef.version
                  newVersion := p.2.version
                  parentField := p.2.parentField
                  fieldChanges := Tracker.detectChildEntryFieldChanges w s p.1 }
            else none
          | none => none),
         current.filterMap (fun p =>
          match objGet stored p.1 with
          | some _ => none
          | none =>
            some
              { id := p.1
                depth := p.2.depth
                parentId := jsOrStr p.2.parentId srcId
                parentField := jsOrStr p.2.parentField "unknown"
                needsTranslation := cfg.autoTranslateNewRefs })) := by
  intro current
  induction current with
  | nil => rfl
  | cons p rest ih =>
    obtain ⟨refId, currentRef⟩ := p
    rw [Tracker.changedNewLoop, ih]
    simp only [List.filterMap_cons]
    rcases h : objGet stored refId with _ | storedRef
    · simp only [h]
    · simp only [h]
      by_cases hc : (decide (currentRef.version > storedRef.version) ||
          decide (currentRef.contentHash ≠ storedRef.contentHash)) = true
      · simp only [hc, if_true]
      · simp only [Bool.not_eq_true] at hc
        simp only [hc]
        simp

/-- C4: the diff of a stored reference map against a current one classifies a
current reference as changed exactly when its id is present in the stored map
and its version grew or its content hash differs (recording depth, old and
new version, parent field and the child's field changes); as new exactly when
its id is absent from the stored map (recording depth, parentId defaulted to
the source id and parentField defaulted to "unknown"); and lists as removed
exactly the stored ids absent from the current map. -/
theorem c4_deep_diff_classification (w : IncWorld) (s : IncState)
    (cfg : TrackerCfg) (srcId : String)
    (stored current : List (String × RefNode)) :
    (Tracker.detectDeepReferenceChangesCore w s cfg srcId stored
        current).changedReferences =
      current.filterMap (fun p =>
        match objGet stored p.1 with
        | some storedRef =>
          if (decide (p.2.version > storedRef.version) ||
              decide (p.2.contentHash ≠ storedRef.contentHash)) = true then
            some
              { id := p.1
                depth := p.2.depth
                oldVersion := storedRef.version
                newVersion := p.2.version
                parentField := p.2.parentField
                fieldChanges := Tracker.detectChildEntryFieldChanges w s p.1 }
          else none
        | none => none) ∧
    (Tracker.detectDeepReferenceChangesCore w s cfg srcId stored
        current).newReferences =
      current.filterMap (fun p =>
        match objGet stored p.1 with
        | some _ => none
        | none =>
          some
            { id := p.1
              depth := p.2.depth
              parentId := jsOrStr p.2.parentId srcId
              parentField := jsOrStr p.2.parentField "unknown"
              needsTranslation := cfg.autoTranslateNewRefs }) ∧
    (Tracker.detectDeepReferenceChangesCore w s cfg srcId stored
        current).removedReferences =
      (stored.map (fun p => p.1)).filter
        (fun refId => !(objHasKey current refId)) := by
  have h := changedNewLoop_eq w s cfg srcId stored current
  unfold Tracker.detectDeepReferenceChangesCore
  rw [h]
  exact ⟨rfl, rfl, rfl⟩

end CT

/-! ## C5 -/

namespace CT

def c5trBad : Translator :=
  Translator.mk (fun t _ _ _ =>
    if t == "Hello IMG_PLACEHOLDER_1 world" then some "Bonjour IMGPLACEHOLDER monde"
    else some t)

def c5cfgBad : CloneConfig := defaultCloneConfig (some c5trBad) true

/-- C5 counterexample: when the provider's body translation mangles the
placeholder token, the image block — caption and url alike — is lost from the
output: the url is not preserved byte-for-byte. -/
theorem c5_url_loss_counterexample :
    translateMarkdownContent c5cfgBad "Hello ![cat](http://img/x.png) world" "EN"
      = "Bonjour IMGPLACEHOLDER monde" ∧
    isSubstr "http://img/x.png" "Bonjour IMGPLACEHOLDER monde" = false :=
  ⟨rfl, rfl⟩

lemma replaceFirst_of_splitFirst {hay needle pre post repl : String}
    (h : splitFirst hay needle = some (pre, post)) :
    replaceFirst hay needle repl = pre ++ repl ++ post := by
  rw [replaceFirst, h]

/-- One step's replacement text for a protected image: the reconstructed
`![translatedCaption](originalUrl)` when the caption translation succeeds,
the full original block when it fails. -/
def imageRepl (cfg : CloneConfig) (tr : Translator) (sourceLanguage : String)
    (img : ImageData) : String :=
  match tr.call img.caption sourceLanguage cfg.translationConfig.targetLanguage
      TrOpts.preserveFmt with
  | some translatedCaption => "![" ++ translatedCaption ++ "](" ++ img.url ++ ")"
  | none => img.fullMatch

/-- Sequential first-occurrence replacement that demands every needle be
found: `none` as soon as a token is missing from the current string. -/
def replaceAllStrict : String → List (String × String) → Option String
  | s, [] => some s
  | s, (tok, repl) :: rest =>
    match splitFirst s tok with
    | none => none
    | some (pre, post) => replaceAllStrict (pre ++ repl ++ post) rest

/-- The image fold of `translateMarkdownContent` agrees with the strict
sequential replacement whenever the latter succeeds. -/
lemma foldl_replace_strict (cfg : CloneConfig) (tr : Translator)
    (sourceLanguage : String) :
    ∀ (imgs : List ImageData) (s r : String),
      replaceAllStrict s
        (imgs.map (fun i => (i.token, imageRepl cfg tr sourceLanguage i)))
        = some r →
      imgs.foldl
        (fun finalResult imageData =>
          match tr.call imageData.caption sourceLanguage
              cfg.translationConfig.targetLanguage TrOpts.preserveFmt with
          | some translatedCaption =>
            replaceFirst finalResult imageData.token
              ("![" ++ translatedCaption ++ "](" ++ imageData.url ++ ")")
          | none => replaceFirst finalResult imageData.token imageData.fullMatch)
        s = r := by
  intro imgs
  induction imgs with
  | nil =>
    intro s r h
    simp only [List.map_nil, replaceAllStrict] at h
    cases h
    rfl
  | cons i rest ih =>
    intro s r h
    simp only [List.map_cons, replaceAllStrict] at h
    rcases hs : splitFirst s i.token with _ | ⟨pre, post⟩
    · rw [hs] at h
      cases h
    · rw [hs] at h
      dsimp only at h
      simp only [List.foldl_cons]
      have hstep : (match tr.call i.caption sourceLanguage
            cfg.translationConfig.targetLanguage TrOpts.preserveFmt with
          | some translatedCaption =>
            replaceFirst s i.token
              ("![" ++ translatedCaption ++ "](" ++ i.url ++ ")")
          | none => replaceFirst s i.token i.fullMatch)
          = pre ++ imageRepl cfg tr sourceLanguage i ++ post := by
        unfold imageRepl
        rcases tr.call i.caption sourceLanguage
            cfg.translationConfig.targetLanguage TrOpts.preserveFmt with _ | c
        · exact replaceFirst_of_splitFirst hs
        · exact replaceFirst_of_splitFirst hs
      rw [hstep]
      exact ih _ r h

/-- C5 (amended): for every markdown input with any number of protected
image blocks, whenever each image's placeholder token is still found at its
replacement step (the strict sequential replacement succeeds on the
translated body), `translateMarkdownContent` returns exactly that
replacement result: each placeholder is replaced in place by
`![translatedCaption](originalUrl)` with the original url byte-for-byte and
only the caption translated, and a caption translation failure restores that
image's entire original block instead. -/
theorem c5_markdown_image_amended (cfg : CloneConfig) (tr : Translator)
    (content sourceLanguage body tbody r : String) (imgs : List ImageData)
    (htr : cfg.translator = some tr)
    (hen : cfg.translationConfig.enabled = true)
    (hpi : protectImages content = (body, imgs))
    (hbody : tr.call body sourceLanguage cfg.translationConfig.targetLanguage
      TrOpts.preserveFmtXml = some tbody)
    (hstrict : replaceAllStrict tbody
      (imgs.map (fun i => (i.token, imageRepl cfg tr sourceLanguage i)))
      = some r) :
    translateMarkdownContent cfg content sourceLanguage = r ∧
    (∀ img : ImageData, ∀ c,
      tr.call img.caption sourceLanguage cfg.translationConfig.targetLanguage
          TrOpts.preserveFmt = some c →
      imageRepl cfg tr sourceLanguage img
        = "![" ++ c ++ "](" ++ img.url ++ ")") ∧
    (∀ img : ImageData,
      tr.call img.caption sourceLanguage cfg.translationConfig.targetLanguage
          TrOpts.preserveFmt = none →
      imageRepl cfg tr sourceLanguage img = img.fullMatch) := by
  refine ⟨?_, ?_, ?_⟩
  · unfold translateMarkdownContent
    rw [htr]
    dsimp only
    rw [hen]
    simp only [Bool.not_true, ite_false, if_false, Bool.false_eq_true]
    rw [hpi]
    dsimp only
    rw [hbody]
    exact foldl_replace_strict cfg tr sourceLanguage imgs tbody r hstrict
  · intro img c hc
    unfold imageRepl
    rw [hc]
  · intro img hc
    unfold imageRepl
    rw [hc]

def c5trId : Translator := Translator.mk (fun t _ _ _ => some t)

def c5cfgId : CloneConfig := defaultCloneConfig (some c5trId) true

/-- Witness for C5: a two-image input under the identity translator comes
back with both urls and blocks intact. -/
theorem c5_markdown_image_amended_witness :
    translateMarkdownContent c5cfgId
        "A ![c1](http://u/1.png) B ![c2](http://u/2.png) C" "EN"
      = "A ![c1](http://u/1.png) B ![c2](http://u/2.png) C" :=
  (c5_markdown_image_amended c5cfgId c5trId
    "A ![c1](http://u/1.png) B ![c2](http://u/2.png) C" "EN"
    "A IMG_PLACEHOLDER_1 B IMG_PLACEHOLDER_2 C"
    "A IMG_PLACEHOLDER_1 B IMG_PLACEHOLDER_2 C"
    "A ![c1](http://u/1.png) B ![c2](http://u/2.png) C"
    [ImageData.mk "IMG_PLACEHOLDER_1" "c1" "http://u/1.png"
      "![c1](http://u/1.png)",
     ImageData.mk "IMG_PLACEHOLDER_2" "c2" "http://u/2.png"
      "![c2](http://u/2.png)"]
    rfl rfl rfl rfl rfl).1

/-! ## C6 -/

/-- C6: when every external Translator call fails, both the clone service's
`translateText` and the incremental service's `translateText` return the
original source text unchanged, for every configuration, text, field type and
source language — the failure never escapes either function. -/
theorem c6_translator_failure_returns_source (cfg : CloneConfig) (tr : Translator)
    (text fieldType : String) (sourceLanguage : Option String)
    (deeplApiKey : Bool) (ctx : TransCtx)
    (hfail : ∀ t a b o, tr.call t a b o = none) :
    translateText { cfg with translator := some tr } text fieldType sourceLanguage
      = text ∧
    Svc.translateText deeplApiKey tr text ctx = text := by
  constructor
  · unfold translateText
    dsimp only
    split_ifs <;> simp [hfail]
  · unfold Svc.translateText
    split_ifs <;> simp [hfail]

/-- C6: when every external Translator call fails, both the clone service's
`translateText` and the incremental service's `translateText` return the
original source text unchanged, for every configuration, text, field type and
source language — the failure never escapes either function. -/
theorem c6_translator_failure_returns_source_witness :
    translateText
        { defaultCloneConfig none true with
            translator := some (Translator.mk (fun _ _ _ _ => none)) }
        "Hello" "Symbol" (some "DE") = "Hello" ∧
    Svc.translateText true (Translator.mk (fun _ _ _ _ => none)) "Hello"
        (TransCtx.mk "DE" "IT") = "Hello" :=
  c6_translator_failure_returns_source (defaultCloneConfig none true)
    (Translator.mk (fun _ _ _ _ => none)) "Hello" "Symbol" (some "DE") true
    (TransCtx.mk "DE" "IT") (fun _ _ _ _ => rfl)

/-! ## C7 -/

def c7tr : Translator :=
  Translator.mk (fun t _ _ _ =>
    if t == "yz" then some "YZ" else if t == "xyz" then some "XYZ" else some t)

def c7cfg : CloneConfig := defaultCloneConfig (some c7tr) true

/-- C7 counterexample: on text that begins with the clone prefix but without
the separating space (`"[Clone]xyz"`), `translateText` strips
`prefix.length + 1` characters, so the first character of the remainder is
swallowed: the translator is called on `"yz"`, not on the remainder `"xyz"`,
and the output `"[Clone] YZ"` is not the prefix re-prepended verbatim to the
translated remainder `"[Clone]XYZ"`. -/
theorem c7_prefix_strip_counterexample :
    translateText c7cfg "[Clone]xyz" "Symbol" (some "DE") = "[Clone] YZ" ∧
    ("[Clone] YZ" = "[Clone]" ++ "XYZ" → False) :=
  ⟨rfl, by decide⟩

lemma charsStartWith_self_append (p q : List Char) :
    charsStartWith p (p ++ q) = true := by
  induction p with
  | nil => rfl
  | cons c cs ih => simp [charsStartWith, ih]

lemma strStartsWith_self_append (p q : String) :
    strStartsWith (p ++ q) p = true := by
  rw [strStartsWith, String.data_append]
  exact charsStartWith_self_append p.data q.data

lemma strDrop_self_append (p q : String) :
    strDrop (p ++ q) p.length = q := by
  apply String.ext
  rw [strDrop, String.data_append]
  show (p.data ++ q.data).drop p.data.length = q.data
  simp

lemma str_append_ne_empty_of_cons (p q : String) :
    ((p ++ " " ++ q) == "") = false := by
  apply beq_eq_false_iff_ne.mpr
  intro h
  have hd := congrArg String.data h
  simp [String.data_append] at hd

lemma strStartsWith_pfx (p q : String) :
    strStartsWith (p ++ " " ++ q) p = true := by
  rw [String.append_assoc]
  exact strStartsWith_self_append p (" " ++ q)

lemma translateText_pfx_eq (cfg : CloneConfig) (tr : Translator)
    (rest fieldType : String) (sl : Option String)
    (htr : cfg.translator = some tr)
    (hen : cfg.translationConfig.enabled = true)
    (hpp : cfg.translationConfig.preservePrefixFlag = true)
    (hft : cfg.translationConfig.translateableTypes.contains fieldType = true)
    (hsl : jsOrStr sl cfg.translationConfig.sourceLanguage ≠ "") :
    translateText cfg (cfg.prefixConfig.pfx ++ " " ++ rest) fieldType sl =
      (if strTrim rest == "" || (strTrim rest).length < 2 then
        cfg.prefixConfig.pfx ++ " " ++ rest
       else
        match tr.call rest (jsOrStr sl cfg.translationConfig.sourceLanguage)
            cfg.translationConfig.targetLanguage TrOpts.noOpts with
        | some result => cfg.prefixConfig.pfx ++ " " ++ result
        | none => cfg.prefixConfig.pfx ++ " " ++ rest) := by
  unfold translateText
  rw [htr]
  dsimp only
  rw [hen, str_append_ne_empty_of_cons, hft]
  simp only [Bool.not_true, Bool.false_or, Bool.or_false, if_false, Bool.not_false,
    ite_false, Bool.false_and, Bool.and_self]
  rw [if_neg (by simp [hsl])]
  rw [hpp, strStartsWith_pfx]
  simp only [Bool.true_and, if_true, ite_true]
  rw [strDrop_self_append (cfg.prefixConfig.pfx ++ " ") rest]
  rw [if_neg (by simp), if_neg (by simp [hsl])]

lemma translateText_pfx_form (cfg : CloneConfig) (tr : Translator)
    (fieldType : String) (sl : Option String)
    (htr : cfg.translator = some tr)
    (hen : cfg.translationConfig.enabled = true)
    (hpp : cfg.translationConfig.preservePrefixFlag = true)
    (hft : cfg.translationConfig.translateableTypes.contains fieldType = true)
    (hsl : jsOrStr sl cfg.translationConfig.sourceLanguage ≠ "")
    (rest : String) :
    ∃ r2, translateText cfg (cfg.prefixConfig.pfx ++ " " ++ rest) fieldType sl
      = cfg.prefixConfig.pfx ++ " " ++ r2 := by
  rw [translateText_pfx_eq cfg tr rest fieldType sl htr hen hpp hft hsl]
  split
  · exact ⟨rest, rfl⟩
  · split
    · exact ⟨_, rfl⟩
    · exact ⟨rest, rfl⟩

/-- C7 (amended): for text of the form `prefix ++ " " ++ rest`,
`translateText` strips the prefix and its separating space, translates only
`rest`, and re-prepends `prefix ++ " "` verbatim; consequently the
`prefix ++ " "` head is preserved byte-for-byte across any number of
translation rounds.  (Texts that begin with the bare prefix but no space
lose one character of the remainder — see the counterexample.) -/
theorem c7_pfx_round_trip (cfg : CloneConfig) (tr : Translator)
    (rest fieldType : String) (sl : Option String)
    (htr : cfg.translator = some tr)
    (hen : cfg.translationConfig.enabled = true)
    (hpp : cfg.translationConfig.preservePrefixFlag = true)
    (hft : cfg.translationConfig.translateableTypes.contains fieldType = true)
    (hsl : jsOrStr sl cfg.translationConfig.sourceLanguage ≠ "") :
    translateText cfg (cfg.prefixConfig.pfx ++ " " ++ rest) fieldType sl =
      (if strTrim rest == "" || (strTrim rest).length < 2 then
        cfg.prefixConfig.pfx ++ " " ++ rest
       else
        match tr.call rest (jsOrStr sl cfg.translationConfig.sourceLanguage)
            cfg.translationConfig.targetLanguage TrOpts.noOpts with
        | some result => cfg.prefixConfig.pfx ++ " " ++ result
        | none => cfg.prefixConfig.pfx ++ " " ++ rest) ∧
    ∀ n : Nat, ∃ r2,
      (fun t => translateText cfg t fieldType sl)^[n]
          (cfg.prefixConfig.pfx ++ " " ++ rest)
        = cfg.prefixConfig.pfx ++ " " ++ r2 := by
  refine ⟨translateText_pfx_eq cfg tr rest fieldType sl htr hen hpp hft hsl, ?_⟩
  intro n
  induction n with
  | zero => exact ⟨rest, rfl⟩
  | succ n ih =>
    obtain ⟨r2, hr2⟩ := ih
    rw [Function.iterate_succ_apply', hr2]
    exact translateText_pfx_form cfg tr fieldType sl htr hen hpp hft hsl r2

/-- C7 (amended): for text of the form `prefix ++ " " ++ rest`,
`translateText` strips the prefix and its separating space, translates only
`rest`, and re-prepends `prefix ++ " "` verbatim; consequently the
`prefix ++ " "` head is preserved byte-for-byte across any number of
translation rounds.  (Texts that begin with the bare prefix but no space
lose one character of the remainder — see the counterexample.) -/
theorem c7_pfx_round_trip_witness :
    ∃ r2, (fun t => translateText c7cfg t "Symbol" (some "DE"))^[3]
        ("[Clone]" ++ " " ++ "hello") = "[Clone]" ++ " " ++ r2 :=
  (c7_pfx_round_trip c7cfg c7tr "hello" "Symbol" (some "DE") rfl rfl rfl rfl
    (by decide)).2 3

/-! ## C8 -/

/-- C8 counterexample: a required absent `Text` field gets the default
`"Default <fieldId>"`, not the empty string the claim states. -/
theorem c8_default_value_counterexample :
    getDefaultValueForField (FieldDef.mk "title" "Text" true []) "en-US-POSIX" "now"
      = JValue.obj [("en-US-POSIX", JValue.str "Default title")] ∧
    JValue.str "Default title" ≠ JValue.str "" :=
  ⟨rfl, fun h => absurd (JValue.str.inj h) (by decide)⟩

/-- C8 (amended): for a required field absent from the source entry and not
in the empty-on-clone set, the clone emits a type-specific default under the
locale key: the first element of the first nonempty `validations.in` for enum
Symbols, `"Default <fieldId>"` (not `""`) for other Symbol and for Text
fields, 0 for Integer and Number, false for Boolean, the current ISO
timestamp for Date, `[]` for Array and `\x7b\x7d` for Object; and the
per-field loop wires exactly this default into the accumulated fields. -/
theorem c8_typed_defaults_amended (id locale nowISO : String) (req : Bool)
    (vals : List Validation) (cfg : CloneConfig) (w : CloneWorld) (fuel : Nat)
    (sourceEntry : Entry) (fieldDef : FieldDef) (rest : List FieldDef)
    (dsl : Option String) (pfxIds : List String) (locale2 : String)
    (acc : List (String × JValue))
    (habsent : objGet sourceEntry.fields fieldDef.id = none)
    (hreq : fieldDef.required = true)
    (hempty : shouldEmptyField cfg fieldDef.id = false) :
    (∀ v vs, firstEnumValues vals = some (v :: vs) →
      getDefaultValueForField (FieldDef.mk id "Symbol" req vals) locale nowISO =
        JValue.obj [(locale, JValue.str v)]) ∧
    (firstEnumValues vals = none →
      getDefaultValueForField (FieldDef.mk id "Symbol" req vals) locale nowISO =
        JValue.obj [(locale, JValue.str ("Default " ++ id))]) ∧
    getDefaultValueForField (FieldDef.mk id "Text" req vals) locale nowISO =
      JValue.obj [(locale, JValue.str ("Default " ++ id))] ∧
    getDefaultValueForField (FieldDef.mk id "Integer" req vals) locale nowISO =
      JValue.obj [(locale, JValue.num 0)] ∧
    getDefaultValueForField (FieldDef.mk id "Number" req vals) locale nowISO =
      JValue.obj [(locale, JValue.num 0)] ∧
    getDefaultValueForField (FieldDef.mk id "Boolean" req vals) locale nowISO =
      JValue.obj [(locale, JValue.jbool false)] ∧
    getDefaultValueForField (FieldDef.mk id "Date" req vals) locale nowISO =
      JValue.obj [(locale, JValue.str nowISO)] ∧
    getDefaultValueForField (FieldDef.mk id "Array" req vals) locale nowISO =
      JValue.obj [(locale, JValue.arr [])] ∧
    getDefaultValueForField (FieldDef.mk id "Object" req vals) locale nowISO =
      JValue.obj [(locale, JValue.obj [])] ∧
    processEntryFields cfg w (fuel + 1) sourceEntry (fieldDef :: rest) dsl
        pfxIds locale2 acc =
      processEntryFields cfg w fuel sourceEntry rest dsl pfxIds locale2
        (objSet acc fieldDef.id
          (getDefaultValueForField fieldDef locale2 w.nowISO)) := by
  refine ⟨?_, ?_, rfl, rfl, rfl, rfl, rfl, rfl, rfl, ?_⟩
  · intro v vs h
    unfold getDefaultValueForField
    simp only [h]
    rfl
  · intro h
    unfold getDefaultValueForField
    simp only [h]
    rfl
  · conv_lhs => rw [processEntryFields]
    rw [habsent, hreq, hempty]
    rfl

def c8cfg : CloneConfig := defaultCloneConfig none false

def c8w : CloneWorld := { env := {} }

def c8src : Entry := { id := "S", contentTypeId := "cmsPage", version := 1 }

/-- C8 (amended): for a required field absent from the source entry and not
in the empty-on-clone set, the clone emits a type-specific default under the
locale key: the first element of the first nonempty `validations.in` for enum
Symbols, `"Default <fieldId>"` (not `""`) for other Symbol and for Text
fields, 0 for Integer and Number, false for Boolean, the current ISO
timestamp for Date, `[]` for Array and `\x7b\x7d` for Object; and the
per-field loop wires exactly this default into the accumulated fields. -/
theorem c8_typed_defaults_amended_witness :
    processEntryFields c8cfg c8w 1 c8src [FieldDef.mk "title" "Text" true []]
        none [] "it-IT" [] =
      processEntryFields c8cfg c8w 0 c8src [] none [] "it-IT"
        (objSet [] "title"
          (getDefaultValueForField (FieldDef.mk "title" "Text" true [])
            "it-IT" c8w.nowISO)) :=
  (c8_typed_defaults_amended "title" "it-IT" "NOW" true [] c8cfg c8w 0 c8src
    (FieldDef.mk "title" "Text" true []) [] none [] "it-IT" [] rfl rfl
    rfl).2.2.2.2.2.2.2.2.2

end CT

/-! ## C10: falsy lastTranslatedVersion reads as no relationship -/

namespace CT

/-- C10: on the filesystem backend (no CMS store), a relationship file whose
`metadata` is missing or whose `metadata.lastTranslatedVersion` is 0 or
absent — the shape of the minimal records `storeDeepReferenceMap` creates
when no relationship exists yet — makes `getRelationship` return `none`
without touching the state, exactly the result an absent file produces. -/
theorem c10_falsy_relationship_reads_as_none (s : IncState)
    (sourceEntryId targetEntryId : String) (doc : StoredDoc)
    (hcms : s.contentful = none)
    (hdoc : objGet s.fileStore (sourceEntryId ++ "_" ++ targetEntryId ++ ".json")
      = some doc)
    (hfalsy : doc.metadata.all
        (fun m => jsFalsyNum m.lastTranslatedVersion) = true) :
    ((Svc.getRelationship sourceEntryId targetEntryId).run).run s
      = (Except.ok none, s) ∧
    (∀ s2 : IncState, s2.contentful = none →
      objGet s2.fileStore (sourceEntryId ++ "_" ++ targetEntryId ++ ".json")
        = none →
      ((Svc.getRelationship sourceEntryId targetEntryId).run).run s2
        = (Except.ok none, s2)) := by
  constructor
  · obtain ⟨sc, sn, sf, st1, st2⟩ := s
    simp only [IncState.contentful] at hcms
    subst hcms
    simp only [IncState.fileStore] at hdoc
    conv_lhs => whnf
    dsimp only
    rw [hdoc]
    dsimp only
    by_cases hg : (jsTruthyStr doc.sourceEntryId && jsTruthyStr doc.targetEntryId
        && doc.referenceTree.isSome) = true
    · rw [if_pos hg]
      rfl
    · rw [if_neg hg]
      rcases hm : doc.metadata with _ | m
      · rfl
      · rw [hm] at hfalsy
        simp only [Option.all_some] at hfalsy
        dsimp only
        rw [if_pos hfalsy]
        rfl
  · intro s2 h1 h2
    obtain ⟨sc, sn, sf, st1, st2⟩ := s2
    simp only [IncState.contentful] at h1
    subst h1
    simp only [IncState.fileStore] at h2
    conv_lhs => whnf
    dsimp only
    rw [h2]
    rfl

/-- The minimal relationship record shape (`lastTranslatedVersion 0`). -/
def c10doc : StoredDoc :=
  { sourceEntryId := some "X"
    targetEntryId := some "Y"
    metadata := some (MetaDoc.mk (some 0) (some "T0") (some "T0"))
    translationContext := some (TransCtx.mk "unknown" "unknown")
    fieldHashes := some []
    cloneMapping := some [] }

def c10state : IncState :=
  { contentful := none, fileStore := [("X_Y.json", c10doc)] }

theorem c10_falsy_relationship_reads_as_none_witness :
    ((Svc.getRelationship "X" "Y").run).run c10state
      = (Except.ok none, c10state) :=
  (c10_falsy_relationship_reads_as_none c10state "X" "Y" c10doc rfl rfl rfl).1

end CT

/-! ## C9 and C2: store upsert and post-check snapshot refresh -/

namespace CT

def c9w : IncWorld := { env := {}, nowISO := "2025-06-01T00:00:00.000Z" }

def c9meta0 : MetaDoc :=
  MetaDoc.mk (some 1) (some "2020-01-01T00:00:00.000Z")
    (some "2020-01-01T00:00:00.000Z")

def c9cmsEntry : CmsMetaEntry :=
  { sysId := "cmsMeta0", relationshipId := "S_T", sourceEntryId := "S",
    targetEntryId := "T", metadata := some c9meta0 }

def c9cmsState : IncState := { contentful := some [c9cmsEntry], cmsNextId := 1 }

def c9fileDoc : StoredDoc :=
  { sourceEntryId := some "S", targetEntryId := some "T",
    metadata := some c9meta0,
    translationContext := some (TransCtx.mk "DE" "IT"),
    fieldHashes := some [], cloneMapping := some [] }

def c9fileState : IncState :=
  { contentful := none, fileStore := [("S_T.json", c9fileDoc)] }

/-- C9: on the CMS-backed primary backend, `createOrUpdateRelationship` does
not preserve the existing relationship's `metadata.createdAt`: the stored
metadata object is replaced wholesale, so `createdAt` becomes the current
timestamp; only the filesystem fallback preserves the original
`createdAt`. -/
theorem c9_createdAt_preservation_divergence :
    ((Svc.createOrUpdateRelationship c9w "S" "T" 2 (TransCtx.mk "DE" "IT")
        [] []).run).run c9cmsState
      = (Except.ok (),
         { contentful := some
             [{ sysId := "cmsMeta0", relationshipId := "S_T",
                sourceEntryId := "S", targetEntryId := "T",
                translationContext := some (TransCtx.mk "DE" "IT"),
                metadata := some (MetaDoc.mk (some 2) (some c9w.nowISO)
                  (some c9w.nowISO)),
                fieldHashes := some [], cloneMapping := some [] }],
           cmsNextId := 1 }) ∧
    c9cmsEntry.metadata = some c9meta0 ∧
    c9meta0.createdAt = some "2020-01-01T00:00:00.000Z" ∧
    c9w.nowISO ≠ "2020-01-01T00:00:00.000Z" ∧
    ((Svc.createOrUpdateRelationship c9w "S" "T" 2 (TransCtx.mk "DE" "IT")
        [] []).run).run c9fileState
      = (Except.ok (),
         { contentful := none,
           fileStore :=
             [("S_T.json",
               { sourceEntryId := some "S", targetEntryId := some "T",
                 metadata := some (MetaDoc.mk (some 2) (some c9w.nowISO)
                   (some "2020-01-01T00:00:00.000Z")),
                 translationContext := some (TransCtx.mk "DE" "IT"),
                 fieldHashes := some [], cloneMapping := some [] })] }) :=
  ⟨rfl, rfl, rfl, by decide, rfl⟩

def c2EntryX : Entry :=
  { id := "X", contentTypeId := "cmsPage", version := 5,
    fields := [("culture", JValue.obj [("en-US-POSIX", JValue.str "de-DE")])] }

def c2Env : Env :=
  { entries := [("X", c2EntryX)],
    contentTypes :=
      [("cmsPage", ContentType.mk "cmsPage"
        [FieldDef.mk "culture" "Symbol" false []])] }

def c2w : IncWorld := { env := c2Env, nowISO := "NOW" }

def c2storedTree : RefNode :=
  Tracker.buildReferenceTree c2Env id "OLD" 3 1000000 c2EntryX 0 none none

def c2storedMap : DeepMap :=
  { sourceEntryId := "X", targetEntryId := "X-it", maxDepth := 3,
    lastScanned := "OLD", referenceTree := c2storedTree,
    flattenedRefs := Tracker.flattenReferenceTree c2storedTree }

def c2relDoc : StoredDoc :=
  { sourceEntryId := some "X", targetEntryId := some "X-it",
    metadata := some (MetaDoc.mk (some 3) (some "OLD") (some "OLD")),
    translationContext := some (TransCtx.mk "DE" "IT"),
    fieldHashes := some [], cloneMapping := some [("Entry:X", "X-it")] }

def c2state : IncState :=
  { contentful := none,
    fileStore :=
      [("X_X-it.json", c2relDoc),
       ("X_X-it_deep_refs.json", docOfDeepMap c2storedMap)] }

def c2run : Except String StatusResult × IncState :=
  ((Svc.checkUpdateStatus c2w "X" "X-it").run).run c2state

/-- C2: a clean status check (relationship present, no basic or deep
changes, `upToDate = true`) leaves the tracking files untouched: the stored
deep reference snapshot keeps its stale `lastScanned` timestamp, because the
refresh is guarded by the never-assigned `this.deepReferenceTracker` of the
service, while the tracker that `initializeDeepTrackingAsync` builds lives
on the change detection service.  Running the refresh that the spec
describes (`updateStoredReferencesAfterProcessing`) on the very same state
would store the fresh snapshot. -/
theorem c2_snapshot_refresh_divergence :
    c2run.1 = Except.ok
      { hasRelationship := true
        hasChanges := some false
        upToDate := some true
        metadata := some
          { lastTranslatedVersion := some 3
            currentVersion := 5
            lastUpdated := some "OLD"
            sourceLanguage := "DE"
            targetLanguage := "IT" } } ∧
    c2run.2.fileStore = c2state.fileStore ∧
    ((objGet c2run.2.fileStore "X_X-it_deep_refs.json").bind
      (fun d => d.lastScanned)) = some "OLD" ∧
    ((objGet
        ((((Tracker.updateStoredReferencesAfterProcessing c2w
            (TrackerCfg.mk 3 true) "X" "X-it").run).run c2run.2).2).fileStore
        "X_X-it_deep_refs.json").bind
      (fun d => d.lastScanned)) = some "NOW" ∧
    ("OLD" : String) ≠ "NOW" :=
  ⟨rfl, rfl, rfl, rfl, by decide⟩

end CT
